import Mathlib

/-!
# SCUQuickEvaluation: the session client of `client.go`

A shallow embedding of `client.go` (the HTTP session client, the evaluation
list fetcher, the evaluation form scraper and submitter, and the batch
driver), followed by theorems about it.

Modelling conventions.

* Go strings are modelled by `String`; page and response texts are sequences
  of Unicode code points (valid UTF-8), on which `strings.Contains` and the
  regular expressions of `client.go` agree with their byte-level meaning.
* Go `error` values are modelled by their message (`String`); `nil` is `none`.
  `fmt.Errorf("ctx: %w", err)` is the concatenation of the context and the
  message of `err`.
* The network, and the library functions whose code is outside the repository
  (`http.NewRequest`, `httpClient.Do`, `encoding/json`, `crypto/md5`), are the
  fields of a `World`.  Every effect of the client (an HTTP request handed to
  `httpClient.Do`, a `time.Sleep`, a call of the progress callback) is
  appended to an explicit trace of `Event`s; the portal's reply to a request
  may depend on the whole trace before it (this subsumes the cookie jar).
* A Go `map[string]interface{}` is an association list with unique keys
  (`setKey` replaces or appends); theorems speak about lookups and about
  membership, never about the iteration order, which Go leaves unspecified.
-/

set_option maxRecDepth 100000

namespace SCU

/-! ## Strings -/

/-- Whether the list `p` is an initial segment of the list `s`
(`strings.HasPrefix` on code points). -/
def startsWithChars : List Char → List Char → Bool
  | _, [] => true
  | [], _ :: _ => false
  | c :: cs, p :: ps => c == p && startsWithChars cs ps

/-- Substring search on code points. -/
def containsChars (substr : List Char) : List Char → Bool
  | [] => substr.isEmpty
  | c :: cs => startsWithChars (c :: cs) substr || containsChars substr cs

/-- Go `strings.Contains(s, substr)`. -/
def stringsContains (s substr : String) : Bool :=
  containsChars substr.data s.data

/-- Go `strings.HasPrefix(s, p)`. -/
def stringsHasPrefix (s p : String) : Bool :=
  startsWithChars s.data p.data

/-! ## Association lists standing for Go maps -/

/-- The assignment `m[k] = v` of a Go map: replaces the binding of `k`, or
adds one. -/
def setKey {ν : Type} (m : List (String × ν)) (k : String) (v : ν) : List (String × ν) :=
  match m with
  | [] => [(k, v)]
  | (k0, v0) :: rest => if k0 = k then (k, v) :: rest else (k0, v0) :: setKey rest k v

/-- The lookup `m[k]` of a Go map, `none` when the key is absent. -/
def getKey {ν : Type} (m : List (String × ν)) (k : String) : Option ν :=
  match m with
  | [] => none
  | (k0, v0) :: rest => if k0 = k then some v0 else getKey rest k

/-! ## The regular expressions of `client.go`

Every pattern of `client.go` is a sequence of literal characters and of
starred one-character classes (`[^>]*`, `[^"]*`, `.*?`), and every capture
group encloses exactly one starred class.  `matchHere` is the backtracking
matcher for such sequences, with Go's leftmost-first preference: a greedy
star takes the longest run first, a lazy star the shortest. -/

/-- The one-character classes that occur in the patterns. -/
inductive CharClass where
  /-- The class `.`: every character but the line feed. -/
  | dot
  /-- The class `[^c]`: every character but `c` (the line feed included). -/
  | notChar (c : Char)
  deriving DecidableEq, Repr

/-- Whether a character belongs to a class. -/
def CharClass.test : CharClass → Char → Bool
  | CharClass.dot, d => d != Char.ofNat 10
  | CharClass.notChar c, d => d != c

/-- The pieces of a pattern. -/
inductive Atom where
  /-- One literal character. -/
  | lit (c : Char)
  /-- A starred class `cls*` (`cls*?` when not greedy), inside a capture
  group when `capture` is set. -/
  | star (cls : CharClass) (greedy : Bool) (capture : Bool)
  deriving DecidableEq, Repr

/-- A literal string as a pattern. -/
def lits (s : String) : List Atom := s.data.map Atom.lit

/-- The result of a match attempt: the input left over and the captured texts. -/
abbrev MatchResult := List Char × List String

/-- Records the text of a finished capture group. -/
def pushCapture (capture : Bool) (acc : List Char) (caps : List String) : List String :=
  if capture then caps ++ [String.mk acc] else caps

/-- Matches a starred class followed by the continuation `k`; `acc` is the run
consumed so far. -/
def starRun (k : List Char → List String → Option MatchResult)
    (cls : CharClass) (greedy capture : Bool) :
    List Char → List Char → List String → Option MatchResult
  | [], acc, caps => k [] (pushCapture capture acc caps)
  | c :: cs, acc, caps =>
    if cls.test c then
      if greedy then
        match starRun k cls greedy capture cs (acc ++ [c]) caps with
        | some r => some r
        | none => k (c :: cs) (pushCapture capture acc caps)
      else
        match k (c :: cs) (pushCapture capture acc caps) with
        | some r => some r
        | none => starRun k cls greedy capture cs (acc ++ [c]) caps
    else k (c :: cs) (pushCapture capture acc caps)

/-- Matches a pattern at the head of the input. -/
def matchHere : List Atom → List Char → List String → Option MatchResult
  | [], input, caps => some (input, caps)
  | Atom.lit c :: rest, input, caps =>
    match input with
    | [] => none
    | d :: ds => if c = d then matchHere rest ds caps else none
  | Atom.star cls greedy capture :: rest, input, caps =>
    starRun (matchHere rest) cls greedy capture input [] caps

/-- The submatches of a match of `re` at the head of `input`: the matched
text, then the captures; and the number of characters matched. -/
def submatchHere (re : List Atom) (input : List Char) : Option (List String × Nat) :=
  match matchHere re input [] with
  | none => none
  | some (rest, caps) =>
    let n := input.length - rest.length
    some (String.mk (input.take n) :: caps, n)

/-- The leftmost match in a list of characters. -/
def findFirstChars (re : List Atom) : List Char → Option (List String)
  | [] => (submatchHere re []).map Prod.fst
  | c :: cs =>
    match submatchHere re (c :: cs) with
    | some (m, _) => some m
    | none => findFirstChars re cs

/-- Go `re.FindStringSubmatch(s)` (and `re.FindSubmatch` on the bytes of `s`):
the leftmost match with its captures; `none` stands for the `nil` slice. -/
def FindStringSubmatch (re : List Atom) (s : String) : Option (List String) :=
  findFirstChars re s.data

/-- The successive non-overlapping matches; `skip` counts the characters of
the previous match that are still to be passed over. -/
def findAllChars (re : List Atom) : List Char → Nat → List (List String)
  | [], _ => []
  | _ :: cs, skip + 1 => findAllChars re cs skip
  | c :: cs, 0 =>
    match submatchHere re (c :: cs) with
    | some (m, n) => m :: findAllChars re cs (n - 1)
    | none => findAllChars re cs 0

/-- Go `re.FindAllStringSubmatch(s, -1)`, for patterns that match no empty
text (all patterns here start with a literal). -/
def FindAllStringSubmatch (re : List Atom) (s : String) : List (List String) :=
  findAllChars re s.data 0

/-- The class `[^>]*`. -/
def notGt : Atom := Atom.star (CharClass.notChar (Char.ofNat 62)) true false

/-- The group `([^"]*)`. -/
def capNotQuote : Atom := Atom.star (CharClass.notChar (Char.ofNat 34)) true true

/-- The group `(.*?)`. -/
def capLazyDot : Atom := Atom.star CharClass.dot false true

/-- The package-level `tokenRegex`:
`<input type="hidden" id="tokenValue" name="tokenValue" value="(.*?)">`. -/
def tokenRegex : List Atom :=
  lits "<input type=\"hidden\" id=\"tokenValue\" name=\"tokenValue\" value=\"" ++
    [capLazyDot] ++ lits "\">"

/-- The `tokenRegex` local to `parseEvaluationForm`:
`<input type="hidden" name="tokenValue" value="(.*?)">`. -/
def formTokenRegex : List Atom :=
  lits "<input type=\"hidden\" name=\"tokenValue\" value=\"" ++ [capLazyDot] ++ lits "\">"

/-- The pattern `<input[^>]*name="wjbm"[^>]*value="([^"]*)"`. -/
def wjbmRegex : List Atom :=
  lits "<input" ++ [notGt] ++ lits "name=\"wjbm\"" ++ [notGt] ++ lits "value=\"" ++
    [capNotQuote] ++ lits "\""

/-- The pattern `<input[^>]*name="ktid"[^>]*value="([^"]*)"`. -/
def ktidRegex : List Atom :=
  lits "<input" ++ [notGt] ++ lits "name=\"ktid\"" ++ [notGt] ++ lits "value=\"" ++
    [capNotQuote] ++ lits "\""

/-- The pattern `<input[^>]*type="radio"[^>]*name="([^"]*)"[^>]*value="([^"]*)"`. -/
def radioRegex : List Atom :=
  lits "<input" ++ [notGt] ++ lits "type=\"radio\"" ++ [notGt] ++ lits "name=\"" ++
    [capNotQuote] ++ lits "\"" ++ [notGt] ++ lits "value=\"" ++ [capNotQuote] ++ lits "\""

/-- The pattern `<input[^>]*type="checkbox"[^>]*name="([^"]*)"[^>]*value="([^"]*)"`. -/
def checkboxRegex : List Atom :=
  lits "<input" ++ [notGt] ++ lits "type=\"checkbox\"" ++ [notGt] ++ lits "name=\"" ++
    [capNotQuote] ++ lits "\"" ++ [notGt] ++ lits "value=\"" ++ [capNotQuote] ++ lits "\""

/-- The pattern `<input[^>]*placeholder="请输入1-100的整数"[^>]*name="([^"]*)"`. -/
def textInputRegex : List Atom :=
  lits "<input" ++ [notGt] ++ lits "placeholder=\"请输入1-100的整数\"" ++ [notGt] ++
    lits "name=\"" ++ [capNotQuote] ++ lits "\""

/-- The pattern
`<textarea name="([^"]*)" class="form-control value_element"[^>]*></textarea>`. -/
def textareaRegex : List Atom :=
  lits "<textarea name=\"" ++ [capNotQuote] ++
    lits "\" class=\"form-control value_element\"" ++ [notGt] ++ lits "></textarea>"

/-! ## Data model -/

/-- A course of the evaluation list (`type Course struct`). -/
structure Course where
  /-- The course name. -/
  KCM : String
  /-- The topic id. -/
  KTID : String
  /-- The questionnaire code. -/
  WJBM : String
  /-- The evaluated flag; "0" marks a course not yet evaluated. -/
  SFPG : String
  /-- The position in the listing. -/
  Index : Int
  deriving DecidableEq, Repr

/-- The client state that the operations read (`type SCUClient struct`); the
`httpClient` field is modelled by the `World` and the trace. -/
structure SCUClient where
  /-- The student number. -/
  Username : String
  /-- The password. -/
  Password : String
  deriving DecidableEq, Repr

/-- The method `SetCredentials`. -/
def SCUClient.SetCredentials (_c : SCUClient) (username password : String) : SCUClient :=
  { Username := username, Password := password }

/-- A value of the form data, a Go `interface{}` that holds a `string` or a
`[]string`. -/
inductive FormValue where
  /-- A `string`. -/
  | str (s : String)
  /-- A `[]string`. -/
  | strs (l : List String)
  deriving DecidableEq, Repr

/-- The form data `map[string]interface{}`. -/
abbrev FormData := List (String × FormValue)

/-- A decoded JSON value, as far as `client.go` tells values apart: a string,
or anything else (given by its `%v` rendering). -/
inductive JSONValue where
  /-- A JSON string. -/
  | str (s : String)
  /-- A JSON value that is not a string. -/
  | other (text : String)
  deriving DecidableEq, Repr

/-- A decoded JSON object `map[string]interface{}`. -/
abbrev JSONObject := List (String × JSONValue)

/-! ## The network -/

/-- An HTTP request as handed to `httpClient.Do`.  `Body` holds the form
fields that the body encodes (url-encoded or multipart), in order. -/
structure Request where
  /-- The method. -/
  Method : String
  /-- The URL. -/
  URL : String
  /-- The headers set on the request. -/
  Header : List (String × String)
  /-- The form fields of the body. -/
  Body : List (String × String)
  deriving DecidableEq, Repr

/-- An HTTP response: the status code and the body, `Except.error` when
reading the body fails. -/
structure Response where
  /-- The status code. -/
  StatusCode : Nat
  /-- The body text, or the read error. -/
  Body : Except String String

/-- The observable effects of the client. -/
inductive Event where
  /-- A request handed to `httpClient.Do`. -/
  | request (r : Request)
  /-- The call `time.Sleep(seconds * time.Second)`. -/
  | sleep (seconds : Nat)
  /-- A call `progressCallback(current, total, status)`. -/
  | progress (current total : Nat) (status : String)
  deriving DecidableEq, Repr

/-- The effects so far, oldest first. -/
abbrev Trace := List Event

/-- The portal and the library functions used by the client. -/
structure World where
  /-- The error of `http.NewRequest(method, url, body)`, `none` for `nil`. -/
  NewRequest : String → String → Option String
  /-- The outcome of `httpClient.Do(req)` after the effects in the trace: a
  transport error or a response. -/
  Do : Trace → Request → Except String Response
  /-- The hexadecimal MD5 digest, `hex.EncodeToString` of the `md5` sum. -/
  md5hex : String → String
  /-- The JSON decoding of a listing body into `EvaluationResponse`, giving
  `Data.Records`. -/
  decodeEvaluationResponse : String → Except String (List Course)
  /-- The JSON decoding of a body into `map[string]interface{}`. -/
  decodeObject : String → Except String JSONObject

/-- The constant `tokenURL`. -/
def tokenURL : String := "http://zhjw.scu.edu.cn/login"

/-- The constant `loginURL`. -/
def loginURL : String := "http://zhjw.scu.edu.cn/j_spring_security_check"

/-- The constant `pjURL`. -/
def pjURL : String :=
  "http://zhjw.scu.edu.cn/student/teachingAssessment/evaluation/queryAll"

/-- The method `setCommonHeaders`. -/
def setCommonHeaders (req : Request) (isMultipart : Bool) : Request :=
  let h := setKey req.Header "Accept"
    "text/html,application/xhtml+xml,application/xml;q=0.9,image/webp,image/apng,*/*;q=0.8,application/signed-exchange;v=b3;q=0.9"
  let h := if isMultipart then
      setKey h "Accept" "application/json, text/javascript, */*; q=0.01"
    else h
  let h := setKey h "Accept-Language" "zh-CN,zh;q=0.9"
  let h := setKey h "Connection" "keep-alive"
  let h := setKey h "DNT" "1"
  let h := setKey h "Host" "zhjw.scu.edu.cn"
  let h := if !isMultipart then setKey h "Upgrade-Insecure-Requests" "1" else h
  let h := setKey h "User-Agent"
    "Mozilla/5.0 (Windows NT 10.0; Win64; x64) AppleWebKit/537.36 (KHTML, like Gecko) Chrome/120.0.0.0 Safari/537.36 Edg/120.0.0.0"
  { req with Header := h }

/-- Sets one header of a request (`req.Header.Set`). -/
def Request.setHeader (req : Request) (k v : String) : Request :=
  { req with Header := setKey req.Header k v }

/-! ## Authentication -/

/-- The request built by `GetToken`. -/
def tokenRequest : Request :=
  setCommonHeaders { Method := "GET", URL := tokenURL, Header := [], Body := [] } false

/-- The method `GetToken`: fetches the login token from the login page. -/
def GetToken (w : World) (tr : Trace) : Except String String × Trace :=
  match w.NewRequest "GET" tokenURL with
  | some err => (Except.error ("创建token请求失败: " ++ err), tr)
  | none =>
    let tr1 := tr ++ [Event.request tokenRequest]
    match w.Do tr tokenRequest with
    | Except.error err => (Except.error ("获取token失败: " ++ err), tr1)
    | Except.ok resp =>
      if resp.StatusCode ≠ 200 then
        (Except.error ("获取token失败，状态码: " ++ toString resp.StatusCode), tr1)
      else
        match resp.Body with
        | Except.error err => (Except.error ("读取token响应体失败: " ++ err), tr1)
        | Except.ok body =>
          let found := (FindStringSubmatch tokenRegex body).getD []
          if found.length < 2 then (Except.error "无法从页面提取token", tr1)
          else (Except.ok (found.getD 1 ""), tr1)

/-- The form `loginData` built by `Login`, in the order of the `Set` calls
(`Encode` writes the fields sorted by key). -/
def loginData (w : World) (c : SCUClient) (token captchaText : String) :
    List (String × String) :=
  let hashedPassword := w.md5hex c.Password
  let d := setKey [] "tokenValue" token
  let d := setKey d "j_username" c.Username
  let d := setKey d "j_password" hashedPassword
  setKey d "j_captcha" captchaText

/-- The request built by `Login`. -/
def loginRequest (w : World) (c : SCUClient) (token captchaText : String) : Request :=
  (setCommonHeaders
    { Method := "POST", URL := loginURL, Header := [],
      Body := loginData w c token captchaText } false).setHeader
    "Content-Type" "application/x-www-form-urlencoded; charset=UTF-8"

/-- The classification of the login response at the end of `Login`. -/
def classifyLogin (statusCode : Nat) (bodyStr : String) : Bool × Option String :=
  if stringsContains bodyStr "欢迎您" ||
      (statusCode == 200 && !stringsContains bodyStr "错误提示" &&
        !stringsContains bodyStr "验证码不正确") then
    (true, none)
  else if stringsContains bodyStr "验证码不正确" then
    (false, some "验证码不正确")
  else if stringsContains bodyStr "密码错误" then
    (false, some "用户名或密码错误")
  else
    (false, some "登录失败")

/-- The method `Login`: the result `(bool, error)` and the trace after it. -/
def Login (w : World) (c : SCUClient) (captchaText : String) (tr : Trace) :
    (Bool × Option String) × Trace :=
  if c.Username = "" ∨ c.Password = "" ∨ captchaText = "" then
    ((false, some "学号、密码和验证码不能为空"), tr)
  else
    match GetToken w tr with
    | (Except.error err, tr1) => ((false, some ("获取登录token失败: " ++ err)), tr1)
    | (Except.ok token, tr1) =>
      match w.NewRequest "POST" loginURL with
      | some err => ((false, some ("创建登录请求失败: " ++ err)), tr1)
      | none =>
        let req := loginRequest w c token captchaText
        let tr2 := tr1 ++ [Event.request req]
        match w.Do tr1 req with
        | Except.error err => ((false, some ("登录请求失败: " ++ err)), tr2)
        | Except.ok resp =>
          match resp.Body with
          | Except.error err => ((false, some ("读取登录响应失败: " ++ err)), tr2)
          | Except.ok bodyStr => (classifyLogin resp.StatusCode bodyStr, tr2)

/-! ## The evaluation list -/

/-- The request built by `GetEvaluationList`. -/
def listRequest : Request :=
  (setCommonHeaders
    { Method := "POST", URL := pjURL, Header := [],
      Body := setKey (setKey (setKey [] "pageNum" "1") "pageSize" "30") "flag" "kt" }
    false).setHeader "Content-Type" "application/x-www-form-urlencoded; charset=UTF-8"

/-- The loop of `GetEvaluationList` over `evalResp.Data.Records`, from index
`i`, with the slice `pendingCourses` built so far. -/
def pendingLoop : List Course → Nat → List Course → List Course
  | [], _, pendingCourses => pendingCourses
  | course :: rest, i, pendingCourses =>
    if course.SFPG = "0" then
      pendingLoop rest (i + 1) (pendingCourses ++ [{ course with Index := (i : Int) }])
    else
      pendingLoop rest (i + 1) pendingCourses

/-- The method `GetEvaluationList`. -/
def GetEvaluationList (w : World) (tr : Trace) : Except String (List Course) × Trace :=
  match w.NewRequest "POST" pjURL with
  | some err => (Except.error ("创建评教列表请求失败: " ++ err), tr)
  | none =>
    let tr1 := tr ++ [Event.request listRequest]
    match w.Do tr listRequest with
    | Except.error err => (Except.error ("获取评教列表失败: " ++ err), tr1)
    | Except.ok resp =>
      if resp.StatusCode ≠ 200 then
        (Except.error ("获取评教列表失败，状态码: " ++ toString resp.StatusCode), tr1)
      else
        match resp.Body.bind w.decodeEvaluationResponse with
        | Except.error err => (Except.error ("解析评教列表响应失败: " ++ err), tr1)
        | Except.ok records => (Except.ok (pendingLoop records 0 []), tr1)

/-! ## The evaluation form -/

/-- The comment written into the text area. -/
def commentText : String :=
  "这门课程的教学效果很好,老师热爱教学,教学方式生动有趣,课程内容丰富且贴合时代特点。"

/-- The token step of `parseEvaluationForm`. -/
def parseToken (htmlContent : String) (formData : FormData) : FormData :=
  match FindStringSubmatch formTokenRegex htmlContent with
  | some found =>
    if found.length > 1 then setKey formData "tokenValue" (FormValue.str (found.getD 1 ""))
    else formData
  | none => formData

/-- The `wjbm` step of `parseEvaluationForm`. -/
def parseWjbm (htmlContent : String) (formData : FormData) : FormData :=
  match FindStringSubmatch wjbmRegex htmlContent with
  | some found =>
    if found.length > 1 then setKey formData "wjbm" (FormValue.str (found.getD 1 ""))
    else formData
  | none => formData

/-- The `ktid` step of `parseEvaluationForm`. -/
def parseKtid (htmlContent : String) (formData : FormData) : FormData :=
  match FindStringSubmatch ktidRegex htmlContent with
  | some found =>
    if found.length > 1 then setKey formData "ktid" (FormValue.str (found.getD 1 ""))
    else formData
  | none => formData

/-- The loop over `radioMatches`; `processedRadios` lists the names whose
entry in the Go map is `true`. -/
def radioLoop : List (List String) → FormData → List String → FormData
  | [], formData, _ => formData
  | found :: rest, formData, processedRadios =>
    if found.length > 2 then
      let name := found.getD 1 ""
      let value := found.getD 2 ""
      if !processedRadios.contains name then
        radioLoop rest (setKey formData name (FormValue.str value)) (name :: processedRadios)
      else radioLoop rest formData processedRadios
    else radioLoop rest formData processedRadios

/-- The loop over `checkboxMatches`, building `checkboxData`. -/
def checkboxLoop : List (List String) → List (String × List String) →
    List (String × List String)
  | [], checkboxData => checkboxData
  | found :: rest, checkboxData =>
    if found.length > 2 then
      let name := found.getD 1 ""
      let value := found.getD 2 ""
      if value ≠ "K_以上均无" then
        checkboxLoop rest
          (setKey checkboxData name ((getKey checkboxData name).getD [] ++ [value]))
      else checkboxLoop rest checkboxData
    else checkboxLoop rest checkboxData

/-- The loop `for name, values := range checkboxData`. -/
def checkboxCopy : List (String × List String) → FormData → FormData
  | [], formData => formData
  | (name, values) :: rest, formData =>
    checkboxCopy rest (setKey formData name (FormValue.strs values))

/-- The loop over `textMatches`. -/
def textLoop : List (List String) → FormData → FormData
  | [], formData => formData
  | found :: rest, formData =>
    if found.length > 1 then
      textLoop rest (setKey formData (found.getD 1 "") (FormValue.str "100"))
    else textLoop rest formData

/-- The text area step of `parseEvaluationForm`. -/
def parseTextarea (htmlContent : String) (formData : FormData) : FormData :=
  match FindStringSubmatch textareaRegex htmlContent with
  | some found =>
    if found.length > 1 then setKey formData (found.getD 1 "") (FormValue.str commentText)
    else formData
  | none => formData

/-- The method `parseEvaluationForm`: the form data and the error, which is
always `nil`. -/
def parseEvaluationForm (htmlContent : String) : FormData × Option String :=
  let formData : FormData := []
  let formData := parseToken htmlContent formData
  let formData := parseWjbm htmlContent formData
  let formData := parseKtid htmlContent formData
  let formData := setKey formData "tjcs" (FormValue.str "0")
  let radioMatches := FindAllStringSubmatch radioRegex htmlContent
  let formData := radioLoop radioMatches formData []
  let checkboxMatches := FindAllStringSubmatch checkboxRegex htmlContent
  let checkboxData := checkboxLoop checkboxMatches []
  let formData := checkboxCopy checkboxData formData
  let textMatches := FindAllStringSubmatch textInputRegex htmlContent
  let formData := textLoop textMatches formData
  let formData := parseTextarea htmlContent formData
  let formData := setKey formData "compare" (FormValue.str "")
  (formData, none)

/-! ## Submission -/

/-- The fields written by `writer.WriteField` for one entry of the form data:
one field for a `string`, one per item for a `[]string` (no value of another
type is ever stored, so the `default` case of the type switch is not reached). -/
def fieldsOf (key : String) : FormValue → List (String × String)
  | FormValue.str v => [(key, v)]
  | FormValue.strs items => items.map (fun item => (key, item))

/-- The fields of the multipart body, entry by entry. -/
def multipartFields : FormData → List (String × String)
  | [] => []
  | (key, value) :: rest => fieldsOf key value ++ multipartFields rest

/-- The verb `%s` of `fmt.Sprintf` applied to `formData["tokenValue"]`. -/
def fmtS : Option FormValue → String
  | none => "%!s(<nil>)"
  | some (FormValue.str s) => s
  | some (FormValue.strs l) => "[" ++ " ".intercalate l ++ "]"

/-- The save endpoint, up to the value of the query parameter. -/
def saveURLBase : String :=
  "http://zhjw.scu.edu.cn/student/teachingAssessment/baseInformation/questionsAdd/doSave?tokenValue="

/-- The `postURL` of `submitEvaluation`. -/
def postURL (formData : FormData) : String :=
  saveURLBase ++ fmtS (getKey formData "tokenValue")

/-- The request built by `submitEvaluation` (the multipart boundary, which is
random, is left out of the content type). -/
def submitRequest (formData : FormData) : Request :=
  ((setCommonHeaders
    { Method := "POST", URL := postURL formData, Header := [],
      Body := multipartFields formData } true).setHeader
    "Content-Type" "multipart/form-data; boundary=").setHeader
    "X-Requested-With" "XMLHttpRequest"

/-- The verb `%v` applied to a decoded JSON value. -/
def fmtValue : JSONValue → String
  | JSONValue.str s => s
  | JSONValue.other text => text

/-- Inserts a binding into a list of bindings sorted by key. -/
def insertSorted (b : String × JSONValue) : JSONObject → JSONObject
  | [] => [b]
  | c :: rest => if b.1 < c.1 then b :: c :: rest else c :: insertSorted b rest

/-- The verb `%v` applied to a decoded JSON object: `map[k:v ...]`, the keys
in increasing order. -/
def fmtObject (result : JSONObject) : String :=
  "map[" ++ " ".intercalate
    ((result.foldr insertSorted []).map (fun b => b.1 ++ ":" ++ fmtValue b.2)) ++ "]"

/-- The type assertion `v.(string)` on a looked-up JSON value. -/
def asString : Option JSONValue → String × Bool
  | some (JSONValue.str s) => (s, true)
  | _ => ("", false)

/-- The method `submitEvaluation`.  The Go map is updated in place, so the
form data after the call is part of the result. -/
def submitEvaluation (w : World) (formData : FormData) (tjcs : String) (tr : Trace) :
    (FormData × Option String) × Trace :=
  let formData := setKey formData "tjcs" (FormValue.str tjcs)
  match w.NewRequest "POST" (postURL formData) with
  | some err => ((formData, some ("创建评教提交请求失败: " ++ err)), tr)
  | none =>
    let req := submitRequest formData
    let tr1 := tr ++ [Event.request req]
    match w.Do tr req with
    | Except.error err => ((formData, some ("提交评教失败: " ++ err)), tr1)
    | Except.ok resp =>
      if resp.StatusCode ≠ 200 then
        ((formData, some ("提交评教失败，状态码: " ++ toString resp.StatusCode)), tr1)
      else
        match resp.Body.bind w.decodeObject with
        | Except.error err => ((formData, some ("解析评教响应失败: " ++ err)), tr1)
        | Except.ok result =>
          if tjcs = "1" then
            let (resultStr, ok) := asString (getKey result "result")
            if !ok || resultStr ≠ "ok" then
              ((formData, some ("评教提交失败: " ++ fmtObject result)), tr1)
            else ((formData, none), tr1)
          else
            let (token, ok) := asString (getKey result "token")
            if ok then ((setKey formData "tokenValue" (FormValue.str token), none), tr1)
            else ((formData, none), tr1)

/-- The `evaluationURL` of `EvaluateCourse`. -/
def evaluationURL (course : Course) : String :=
  "http://zhjw.scu.edu.cn/student/teachingEvaluation/newEvaluation/evaluation/" ++
    course.KTID

/-- The page request built by `EvaluateCourse`. -/
def pageRequest (course : Course) : Request :=
  setCommonHeaders
    { Method := "GET", URL := evaluationURL course, Header := [], Body := [] } false

/-- The method `EvaluateCourse`: the error (`none` for `nil`) and the trace
after it. -/
def EvaluateCourse (w : World) (course : Course) (tr : Trace) : Option String × Trace :=
  match w.NewRequest "GET" (evaluationURL course) with
  | some err => (some ("创建评教页面请求失败: " ++ err), tr)
  | none =>
    let req := pageRequest course
    let tr1 := tr ++ [Event.request req]
    match w.Do tr req with
    | Except.error err => (some ("获取评教页面失败: " ++ err), tr1)
    | Except.ok resp =>
      if resp.StatusCode ≠ 200 then
        (some ("获取评教页面失败，状态码: " ++ toString resp.StatusCode), tr1)
      else
        match resp.Body with
        | Except.error err => (some ("读取评教页面失败: " ++ err), tr1)
        | Except.ok body =>
          match parseEvaluationForm body with
          | (_, some err) => (some ("解析评教表单失败: " ++ err), tr1)
          | (formData, none) =>
            match submitEvaluation w formData "0" tr1 with
            | ((_, some err), tr2) => (some ("第一次提交评教失败: " ++ err), tr2)
            | ((formData, none), tr2) =>
              let tr3 := tr2 ++ [Event.sleep 1]
              match submitEvaluation w formData "1" tr3 with
              | ((_, some err), tr4) => (some ("第二次提交评教失败: " ++ err), tr4)
              | ((_, none), tr4) => (none, tr4)

/-! ## The batch driver -/

/-- The call of the progress callback, when there is one. -/
def report (hasCallback : Bool) (current total : Nat) (status : String) (tr : Trace) :
    Trace :=
  if hasCallback then tr ++ [Event.progress current total status] else tr

/-- The loop of `EvaluateAllCourses` from index `i`; `hasCallback` tells
whether `progressCallback != nil`. -/
def evaluateLoop (w : World) (hasCallback : Bool) (total : Nat) :
    Nat → List Course → Trace → Trace
  | _, [], tr => tr
  | i, course :: rest, tr =>
    let tr1 := report hasCallback (i + 1) total ("正在评教: " ++ course.KCM) tr
    match EvaluateCourse w course tr1 with
    | (some err, tr2) =>
      let tr3 := report hasCallback (i + 1) total
        ("评教失败: " ++ course.KCM ++ " - " ++ err) tr2
      evaluateLoop w hasCallback total (i + 1) rest tr3
    | (none, tr2) =>
      let tr3 := report hasCallback (i + 1) total ("评教完成: " ++ course.KCM) tr2
      evaluateLoop w hasCallback total (i + 1) rest (tr3 ++ [Event.sleep 2])

/-- The method `EvaluateAllCourses`: the returned error and the trace after
it. -/
def EvaluateAllCourses (w : World) (courses : List Course) (hasCallback : Bool)
    (tr : Trace) : Option String × Trace :=
  (none, evaluateLoop w hasCallback courses.length 0 courses tr)

/-! ## Observations on a batch run -/

/-- The calls of the progress callback in a trace, in order. -/
def progressCalls : Trace → List (Nat × Nat × String)
  | [] => []
  | Event.progress current total status :: rest =>
    (current, total, status) :: progressCalls rest
  | _ :: rest => progressCalls rest

/-- The trace of `EvaluateAllCourses` (with a callback) when its loop reaches
position `i` of `courses`: the loop has run over the first `i` courses. -/
def batchTraceAt (w : World) (courses : List Course) (tr : Trace) (i : Nat) : Trace :=
  evaluateLoop w true courses.length 0 (courses.take i) tr

/-- The attempt on the course at position `i` of the batch: `EvaluateCourse`
called after the callback has announced the course. -/
def attemptAt (w : World) (courses : List Course) (tr : Trace) (i : Nat)
    (course : Course) : Option String × Trace :=
  EvaluateCourse w course
    (batchTraceAt w courses tr i ++
      [Event.progress (i + 1) courses.length ("正在评教: " ++ course.KCM)])

/-- The status that the loop reports after an attempt with the given result. -/
def finalStatus (course : Course) : Option String → String
  | some err => "评教失败: " ++ course.KCM ++ " - " ++ err
  | none => "评教完成: " ++ course.KCM

/-- The delay that the loop makes after an attempt with the given result. -/
def finalDelay : Option String → Trace
  | some _ => []
  | none => [Event.sleep 2]

/-- The callbacks of the first `k` courses of the batch. -/
def batchCalls (w : World) (courses : List Course) (tr : Trace) :
    Nat → List (Nat × Nat × String)
  | 0 => []
  | k + 1 =>
    batchCalls w courses tr k ++
      match courses[k]? with
      | some course =>
        [(k + 1, courses.length, "正在评教: " ++ course.KCM),
          (k + 1, courses.length, finalStatus course (attemptAt w courses tr k course).1)]
      | none => []

/-! ## Concrete worlds

Worlds for evaluating the client on concrete inputs: the portal answers the
`n`-th request of a run with the `n`-th reply of a script, whatever the
request; the decoders know the few bodies used below. -/

/-- The number of requests in a trace. -/
def requestCount : Trace → Nat
  | [] => 0
  | Event.request _ :: rest => requestCount rest + 1
  | _ :: rest => requestCount rest

/-- A response with status 200 and the given body. -/
def okResponse (body : String) : Except String Response :=
  Except.ok { StatusCode := 200, Body := Except.ok body }

/-- A response with the given status and body. -/
def statusResponse (status : Nat) (body : String) : Except String Response :=
  Except.ok { StatusCode := status, Body := Except.ok body }

/-- The body of a listing with three records, the second one evaluated. -/
def sampleListBody : String :=
  "\x7b\"data\":\x7b\"records\":[\x7b\"KCM\":\"高等数学\",\"KTID\":\"k1\",\"WJBM\":\"w1\",\"SFPG\":\"0\"\x7d,\x7b\"KCM\":\"大学物理\",\"KTID\":\"k2\",\"WJBM\":\"w2\",\"SFPG\":\"1\"\x7d,\x7b\"KCM\":\"线性代数\",\"KTID\":\"k3\",\"WJBM\":\"w3\",\"SFPG\":\"0\"\x7d]\x7d\x7d"

/-- The records of `sampleListBody`. -/
def sampleRecords : List Course :=
  [ { KCM := "高等数学", KTID := "k1", WJBM := "w1", SFPG := "0", Index := 0 },
    { KCM := "大学物理", KTID := "k2", WJBM := "w2", SFPG := "1", Index := 0 },
    { KCM := "线性代数", KTID := "k3", WJBM := "w3", SFPG := "0", Index := 0 } ]

/-- A JSON decoder for the listing bodies used below. -/
def sampleDecodeList (body : String) : Except String (List Course) :=
  if body = sampleListBody then Except.ok sampleRecords
  else Except.error "invalid character"

/-- A JSON decoder for the submission bodies used below. -/
def sampleDecodeObject (body : String) : Except String JSONObject :=
  if body = "\x7b\"token\":\"T2\"\x7d" then Except.ok [("token", JSONValue.str "T2")]
  else if body = "\x7b\"result\":\"ok\"\x7d" then Except.ok [("result", JSONValue.str "ok")]
  else if body = "\x7b\x7d" then Except.ok []
  else Except.error "invalid character"

/-- A digest function that knows the password used below. -/
def sampleMd5hex (s : String) : String :=
  if s = "secret" then "5ebe2294ecd0e0f08eab7690d2a6ee69" else ""

/-- The world in which the portal answers the successive requests with the
successive replies of a script, and refuses the connection afterwards. -/
def scriptedWorld (replies : List (Except String Response)) : World where
  NewRequest := fun _ _ => none
  Do := fun tr _ => replies.getD (requestCount tr) (Except.error "connection refused")
  md5hex := sampleMd5hex
  decodeEvaluationResponse := sampleDecodeList
  decodeObject := sampleDecodeObject

/-- A login page carrying the token `tok`. -/
def sampleLoginPage : String :=
  "<form>\n<input type=\"hidden\" id=\"tokenValue\" name=\"tokenValue\" value=\"tok\">\n</form>"

/-- A client with credentials. -/
def sampleClient : SCUClient := { Username := "2023141460001", Password := "secret" }

/-- The world of a login attempt: the login page, then the given reply to the
login request. -/
def loginWorld (status : Nat) (body : String) : World :=
  scriptedWorld [okResponse sampleLoginPage, statusResponse status body]

/-- A login response body that reports a wrong password under the heading
"错误提示". -/
def bodyWrongPassword : String := "<strong>错误提示</strong> 用户名或密码错误，请重新输入"

/-- A login response body that mentions a wrong password without the heading
"错误提示". -/
def bodyPasswordNote : String := "<p>密码错误</p>"

/-- A login response body with the success marker and the password marker. -/
def bodyWelcomePassword : String := "<p>欢迎您</p><p>密码错误</p>"

/-- A login response body with the captcha marker and the password marker. -/
def bodyCaptchaPassword : String := "<p>验证码不正确</p><p>密码错误</p>"

/-- A login response body that reports a wrong captcha. -/
def bodyWrongCaptcha : String := "<strong>错误提示</strong> 验证码不正确"

/-- A login response body with the success marker and the captcha marker. -/
def bodyWelcomeCaptcha : String := "<p>欢迎您</p><p>验证码不正确</p>"

/-- A login response body without any marker. -/
def bodyPlain : String := "<html><body>index</body></html>"

/-- A login response body with the heading "错误提示" and none of the markers
"欢迎您", "验证码不正确", "密码错误". -/
def bodyErrorHeading : String := "<strong>错误提示</strong> 账号已锁定"

/-- An evaluation page with a token, a topic id, a questionnaire code, one
radio group, one checkbox group, one numeric input and the comment area. -/
def samplePage : String :=
  "<form id=\"saveEvaluation\">\n<input type=\"hidden\" name=\"tokenValue\" value=\"T\">\n<input type=\"hidden\" name=\"wjbm\" value=\"w1\"/>\n<input type=\"hidden\" name=\"ktid\" value=\"k1\"/>\n<input type=\"radio\" name=\"q1\" value=\"A\">\n<input type=\"radio\" name=\"q1\" value=\"B\">\n<input type=\"checkbox\" name=\"q2\" value=\"X\">\n<input type=\"checkbox\" name=\"q2\" value=\"K_以上均无\">\n<input type=\"text\" placeholder=\"请输入1-100的整数\" name=\"q3\">\n<textarea name=\"zgpj\" class=\"form-control value_element\" rows=\"3\"></textarea>\n</form>"

/-- An evaluation page with a token and neither topic id nor questionnaire
code. -/
def pageTokenOnly : String :=
  "<form>\n<input type=\"hidden\" name=\"tokenValue\" value=\"T\">\n</form>"

/-- An evaluation page without any form field. -/
def pageNoFields : String := "<html><body>暂无问卷</body></html>"

/-- The body of a submission response that carries the new token `T2`. -/
def bodyNewToken : String := "\x7b\"token\":\"T2\"\x7d"

/-- The body of a submission response that reports success. -/
def bodyResultOk : String := "\x7b\"result\":\"ok\"\x7d"

/-- The first course of `sampleRecords`, as `GetEvaluationList` returns it. -/
def courseA : Course :=
  { KCM := "高等数学", KTID := "k1", WJBM := "w1", SFPG := "0", Index := 0 }

/-- The third course of `sampleRecords`, as `GetEvaluationList` returns it. -/
def courseB : Course :=
  { KCM := "线性代数", KTID := "k3", WJBM := "w3", SFPG := "0", Index := 2 }

/-- The world of one course evaluation: the page, then the replies to the
two submissions. -/
def courseWorld (page : String) : World :=
  scriptedWorld [okResponse page, okResponse bodyNewToken, okResponse bodyResultOk]

/-- The number of inter-course delays `time.Sleep(2 * time.Second)` in a trace. -/
def delayCount : Trace → Nat
  | [] => 0
  | Event.sleep 2 :: rest => delayCount rest + 1
  | _ :: rest => delayCount rest

/-- The world of a batch of two courses: the page of the first course is
answered with status 500, the second course goes through. -/
def batchWorld : World :=
  scriptedWorld [statusResponse 500 "", okResponse samplePage, okResponse bodyNewToken,
    okResponse bodyResultOk]

/-- The form data sent by the DRAFT submission of `samplePage`. -/
def sampleDraftForm : FormData :=
  [("tokenValue", FormValue.str "T"), ("wjbm", FormValue.str "w1"),
    ("ktid", FormValue.str "k1"), ("tjcs", FormValue.str "0"), ("q1", FormValue.str "A"),
    ("q2", FormValue.strs ["X"]), ("q3", FormValue.str "100"),
    ("zgpj", FormValue.str commentText), ("compare", FormValue.str "")]

/-- The form data sent by the FINAL submission of `samplePage` after the
portal has issued the token `T2`. -/
def sampleFinalForm : FormData :=
  [("tokenValue", FormValue.str "T2"), ("wjbm", FormValue.str "w1"),
    ("ktid", FormValue.str "k1"), ("tjcs", FormValue.str "1"), ("q1", FormValue.str "A"),
    ("q2", FormValue.strs ["X"]), ("q3", FormValue.str "100"),
    ("zgpj", FormValue.str commentText), ("compare", FormValue.str "")]

/-- The sample form of the scraping test: one hidden token input, one radio
group `q1` with the values `A` then `B`, one checkbox group `q2` with the
values `X` then `K_以上均无`, and one numeric text input `q3`. -/
def sampleForm : String :=
  "<form>\n<input type=\"hidden\" name=\"tokenValue\" value=\"T\">\n<input type=\"radio\" name=\"q1\" value=\"A\">\n<input type=\"radio\" name=\"q1\" value=\"B\">\n<input type=\"checkbox\" name=\"q2\" value=\"X\">\n<input type=\"checkbox\" name=\"q2\" value=\"K_以上均无\">\n<input type=\"text\" placeholder=\"请输入1-100的整数\" name=\"q3\">\n</form>"

/-- The number of capture groups of a pattern. -/
def captureCount : List Atom → Nat
  | [] => 0
  | Atom.lit _ :: rest => captureCount rest
  | Atom.star _ _ capture :: rest => (if capture then 1 else 0) + captureCount rest

/-- The values captured for the name `n` in a list of checkbox matches, in
document order and with duplicates kept, without the value `K_以上均无`. -/
def checkboxValues (found : List (List String)) (n : String) : List String :=
  ((found.filter (fun m => m.getD 1 "" = n)).map (fun m => m.getD 2 "")).filter
    (fun v => v ≠ "K_以上均无")

/-- The body of a submission response that is the empty JSON object. -/
def bodyEmptyObject : String := "\x7b\x7d"

/-! ## Lemmas -/

theorem pendingLoop_eq (records : List Course) (i : Nat) (acc : List Course) :
    pendingLoop records i acc =
      acc ++ ((records.enumFrom i).filter (fun p => p.2.SFPG = "0")).map
        (fun p => { p.2 with Index := (p.1 : Int) }) := by
  induction records generalizing i acc with
  | nil => simp [pendingLoop]
  | cons course rest ih =>
    by_cases h : course.SFPG = "0"
    · simp [pendingLoop, h, ih, List.enumFrom_cons]
    · simp [pendingLoop, h, ih, List.enumFrom_cons]

theorem getKey_setKey_self {ν : Type} (m : List (String × ν)) (k : String) (v : ν) :
    getKey (setKey m k v) k = some v := by
  induction m with
  | nil => simp [setKey, getKey]
  | cons b rest ih =>
    obtain ⟨k0, v0⟩ := b
    by_cases h : k0 = k
    · simp [setKey, getKey, h]
    · simp [setKey, getKey, h, ih]

theorem getKey_setKey_ne {ν : Type} (m : List (String × ν)) (k k' : String) (v : ν)
    (hne : k ≠ k') : getKey (setKey m k v) k' = getKey m k' := by
  induction m with
  | nil => simp [setKey, getKey, hne]
  | cons b rest ih =>
    obtain ⟨k0, v0⟩ := b
    by_cases h : k0 = k
    · subst h
      simp [setKey, getKey, hne]
    · by_cases h' : k0 = k'
      · subst h'
        simp [setKey, getKey, h]
      · simp [setKey, getKey, h, h', ih]

theorem mem_keys_setKey {ν : Type} (m : List (String × ν)) (k : String) (v : ν)
    (x : String) (hx : x ∈ (setKey m k v).map Prod.fst) :
    x = k ∨ x ∈ m.map Prod.fst := by
  induction m with
  | nil =>
    simp [setKey] at hx
    exact Or.inl hx
  | cons b rest ih =>
    obtain ⟨k0, v0⟩ := b
    by_cases h : k0 = k
    · simp [setKey, h] at hx
      rcases hx with hx | hx
      · exact Or.inl hx
      · exact Or.inr (by simp; right; exact hx)
    · simp only [setKey, h, if_false, List.map_cons, List.mem_cons] at hx
      rcases hx with hx | hx
      · exact Or.inr (by simp [hx])
      · rcases ih hx with h1 | h1
        · exact Or.inl h1
        · exact Or.inr (List.mem_cons_of_mem _ h1)

/-- The assignment to a Go map keeps the keys distinct. -/
theorem nodup_keys_setKey {ν : Type} (m : List (String × ν)) (k : String) (v : ν)
    (hm : (m.map Prod.fst).Nodup) : ((setKey m k v).map Prod.fst).Nodup := by
  induction m with
  | nil => simp [setKey]
  | cons b rest ih =>
    obtain ⟨k0, v0⟩ := b
    simp only [List.map_cons, List.nodup_cons] at hm
    by_cases h : k0 = k
    · subst h
      simp only [setKey, if_true, List.map_cons, List.nodup_cons]
      exact hm
    · simp only [setKey, h, if_false, List.map_cons, List.nodup_cons]
      refine ⟨?_, ih hm.2⟩
      intro hmem
      rcases mem_keys_setKey rest k v k0 hmem with h1 | h1
      · exact h h1
      · exact hm.1 h1

/-- With distinct keys, the bindings of a map are given by the lookup. -/
theorem mem_iff_getKey {ν : Type} (m : List (String × ν)) (k : String) (v : ν)
    (hm : (m.map Prod.fst).Nodup) : (k, v) ∈ m ↔ getKey m k = some v := by
  induction m with
  | nil => simp [getKey]
  | cons b rest ih =>
    obtain ⟨k0, v0⟩ := b
    simp only [List.map_cons, List.nodup_cons] at hm
    by_cases h : k0 = k
    · subst h
      simp only [getKey, if_true, List.mem_cons, Prod.mk.injEq, true_and, Option.some.injEq]
      constructor
      · rintro (h1 | h1)
        · exact h1.symm
        · exact absurd (List.mem_map_of_mem Prod.fst h1) hm.1
      · intro h1
        exact Or.inl h1.symm
    · simp only [getKey, h, if_false, List.mem_cons, Prod.mk.injEq]
      rw [← ih hm.2]
      constructor
      · rintro (h1 | h1)
        · exact absurd h1.1.symm h
        · exact h1
      · intro h1
        exact Or.inr h1

theorem mem_multipartFields (m : FormData) (k v : String) :
    (k, v) ∈ multipartFields m ↔ ∃ val, (k, val) ∈ m ∧ (k, v) ∈ fieldsOf k val := by
  induction m with
  | nil => simp [multipartFields]
  | cons b rest ih =>
    obtain ⟨k0, v0⟩ := b
    simp only [multipartFields, List.mem_append, ih, List.mem_cons, Prod.mk.injEq]
    constructor
    · rintro (h1 | ⟨val, h1, h2⟩)
      · have hk : k = k0 := by
          cases v0 with
          | str s0 =>
            simp only [fieldsOf, List.mem_singleton, Prod.mk.injEq] at h1
            exact h1.1
          | strs l =>
            simp only [fieldsOf, List.mem_map, Prod.mk.injEq] at h1
            obtain ⟨_, _, h3, _⟩ := h1
            exact h3.symm
        subst hk
        exact ⟨v0, Or.inl ⟨rfl, rfl⟩, h1⟩
      · exact ⟨val, Or.inr h1, h2⟩
    · rintro ⟨val, (⟨h1, h2⟩ | h1), h3⟩
      · subst h1 h2
        exact Or.inl h3
      · exact Or.inr ⟨val, h1, h3⟩

theorem nodup_keys_radioLoop (found : List (List String)) (formData : FormData)
    (processed : List String) (hm : (formData.map Prod.fst).Nodup) :
    ((radioLoop found formData processed).map Prod.fst).Nodup := by
  induction found generalizing formData processed with
  | nil => simpa [radioLoop] using hm
  | cons m rest ih =>
    simp only [radioLoop]
    split
    · split
      · exact ih _ _ (nodup_keys_setKey _ _ _ hm)
      · exact ih _ _ hm
    · exact ih _ _ hm

theorem nodup_keys_checkboxCopy (checkboxData : List (String × List String))
    (formData : FormData) (hm : (formData.map Prod.fst).Nodup) :
    ((checkboxCopy checkboxData formData).map Prod.fst).Nodup := by
  induction checkboxData generalizing formData with
  | nil => simpa [checkboxCopy] using hm
  | cons b rest ih =>
    obtain ⟨name, values⟩ := b
    simp only [checkboxCopy]
    exact ih _ (nodup_keys_setKey _ _ _ hm)

theorem nodup_keys_textLoop (found : List (List String)) (formData : FormData)
    (hm : (formData.map Prod.fst).Nodup) :
    ((textLoop found formData).map Prod.fst).Nodup := by
  induction found generalizing formData with
  | nil => simpa [textLoop] using hm
  | cons m rest ih =>
    simp only [textLoop]
    split
    · exact ih _ (nodup_keys_setKey _ _ _ hm)
    · exact ih _ hm

/-- The form data built by `parseEvaluationForm` has distinct keys, as a Go
map has. -/
theorem nodup_keys_parseEvaluationForm (htmlContent : String) :
    (((parseEvaluationForm htmlContent).1).map Prod.fst).Nodup := by
  have h0 : (([] : FormData).map Prod.fst).Nodup := by simp
  have h1 : ((parseToken htmlContent []).map Prod.fst).Nodup := by
    unfold parseToken
    split
    · split
      · exact nodup_keys_setKey _ _ _ h0
      · exact h0
    · exact h0
  have h2 : ((parseWjbm htmlContent (parseToken htmlContent [])).map Prod.fst).Nodup := by
    unfold parseWjbm
    split
    · split
      · exact nodup_keys_setKey _ _ _ h1
      · exact h1
    · exact h1
  have h3 : ((parseKtid htmlContent
      (parseWjbm htmlContent (parseToken htmlContent []))).map Prod.fst).Nodup := by
    unfold parseKtid
    split
    · split
      · exact nodup_keys_setKey _ _ _ h2
      · exact h2
    · exact h2
  have h4 := nodup_keys_setKey _ "tjcs" (FormValue.str "0") h3
  have h5 := nodup_keys_radioLoop (FindAllStringSubmatch radioRegex htmlContent) _ [] h4
  have h6 := nodup_keys_checkboxCopy
    (checkboxLoop (FindAllStringSubmatch checkboxRegex htmlContent) []) _ h5
  have h7 := nodup_keys_textLoop (FindAllStringSubmatch textInputRegex htmlContent) _ h6
  have h8 : ((parseTextarea htmlContent (textLoop
      (FindAllStringSubmatch textInputRegex htmlContent) (checkboxCopy
        (checkboxLoop (FindAllStringSubmatch checkboxRegex htmlContent) [])
        (radioLoop (FindAllStringSubmatch radioRegex htmlContent)
          (setKey (parseKtid htmlContent (parseWjbm htmlContent
            (parseToken htmlContent []))) "tjcs" (FormValue.str "0")) [])))).map
      Prod.fst).Nodup := by
    unfold parseTextarea
    split
    · split
      · exact nodup_keys_setKey _ _ _ h7
      · exact h7
    · exact h7
  exact nodup_keys_setKey _ "compare" (FormValue.str "") h8

/-- A submission whose request can be created hands exactly one request to
the portal. -/
theorem submitEvaluation_trace (w : World) (formData : FormData) (tjcs : String)
    (tr : Trace)
    (hNew : w.NewRequest "POST" (postURL (setKey formData "tjcs" (FormValue.str tjcs))) =
      none) :
    (submitEvaluation w formData tjcs tr).2 =
      tr ++ [Event.request (submitRequest (setKey formData "tjcs" (FormValue.str tjcs)))] := by
  unfold submitEvaluation
  simp only [hNew]
  split
  · rfl
  · split
    · rfl
    · split
      · rfl
      · split <;> split <;> rfl

/-- A submission only appends to the trace. -/
theorem submitEvaluation_trace_extends (w : World) (formData : FormData) (tjcs : String)
    (tr : Trace) : ∃ rest, (submitEvaluation w formData tjcs tr).2 = tr ++ rest := by
  unfold submitEvaluation
  simp only
  split
  · exact ⟨[], by simp⟩
  · split
    · exact ⟨_, rfl⟩
    · split
      · exact ⟨_, rfl⟩
      · split
        · exact ⟨_, rfl⟩
        · split <;> split <;> exact ⟨_, rfl⟩

/-- A DRAFT submission answered with status 200 and a JSON object that
carries a string field `token` stores that token in the form data. -/
theorem submitEvaluation_draft_token (w : World) (formData : FormData) (tr : Trace)
    (body : String) (result : JSONObject) (token : String)
    (hNew : w.NewRequest "POST" (postURL (setKey formData "tjcs" (FormValue.str "0"))) =
      none)
    (hDo : w.Do tr (submitRequest (setKey formData "tjcs" (FormValue.str "0"))) =
      Except.ok { StatusCode := 200, Body := Except.ok body })
    (hDec : w.decodeObject body = Except.ok result)
    (hTok : getKey result "token" = some (JSONValue.str token)) :
    submitEvaluation w formData "0" tr =
      ((setKey (setKey formData "tjcs" (FormValue.str "0")) "tokenValue"
          (FormValue.str token), none),
        tr ++ [Event.request (submitRequest (setKey formData "tjcs" (FormValue.str "0")))]) := by
  simp [submitEvaluation, hNew, hDo, Except.bind, hDec, hTok, asString]

/-- The course evaluation once the page is fetched: the two submissions on
the scraped form data. -/
theorem EvaluateCourse_of_page (w : World) (course : Course) (tr : Trace) (html : String)
    (hNew : w.NewRequest "GET" (evaluationURL course) = none)
    (hPage : w.Do tr (pageRequest course) =
      Except.ok { StatusCode := 200, Body := Except.ok html }) :
    EvaluateCourse w course tr =
      (match submitEvaluation w (parseEvaluationForm html).1 "0"
          (tr ++ [Event.request (pageRequest course)]) with
        | ((_, some err), tr2) => (some ("第一次提交评教失败: " ++ err), tr2)
        | ((formData, none), tr2) =>
          match submitEvaluation w formData "1" (tr2 ++ [Event.sleep 1]) with
          | ((_, some err), tr4) => (some ("第二次提交评教失败: " ++ err), tr4)
          | ((_, none), tr4) => (none, tr4)) := by
  simp only [EvaluateCourse, hNew, hPage]
  rfl

theorem progressCalls_append (a b : Trace) :
    progressCalls (a ++ b) = progressCalls a ++ progressCalls b := by
  induction a with
  | nil => rfl
  | cons e rest ih =>
    cases e <;> simp [progressCalls, ih]

/-- A submission calls no progress callback. -/
theorem progressCalls_submitEvaluation (w : World) (formData : FormData) (tjcs : String)
    (tr : Trace) : progressCalls (submitEvaluation w formData tjcs tr).2 = progressCalls tr := by
  unfold submitEvaluation
  simp only
  split
  · rfl
  · split
    · simp [progressCalls_append, progressCalls]
    · split
      · simp [progressCalls_append, progressCalls]
      · split
        · simp [progressCalls_append, progressCalls]
        · split <;> split <;> simp [progressCalls_append, progressCalls]

/-- A course evaluation calls no progress callback. -/
theorem progressCalls_EvaluateCourse (w : World) (course : Course) (tr : Trace) :
    progressCalls (EvaluateCourse w course tr).2 = progressCalls tr := by
  unfold EvaluateCourse
  simp only
  split
  · rfl
  · split
    · simp [progressCalls_append, progressCalls]
    · split
      · simp [progressCalls_append, progressCalls]
      · split
        · simp [progressCalls_append, progressCalls]
        · split
          · simp [progressCalls_append, progressCalls]
          · rename_i formData _
            have h1 := progressCalls_submitEvaluation w formData "0"
              (tr ++ [Event.request (pageRequest course)])
            split
            · rename_i heq
              rw [heq] at h1
              simpa [progressCalls_append, progressCalls] using h1
            · rename_i formData2 tr2 heq
              rw [heq] at h1
              have h2 := progressCalls_submitEvaluation w formData2 "1"
                (tr2 ++ [Event.sleep 1])
              split
              · rename_i heq2
                rw [heq2] at h2
                simp only at h1 h2
                simpa [progressCalls_append, progressCalls, h1] using h2
              · rename_i heq2
                rw [heq2] at h2
                simp only at h1 h2
                simpa [progressCalls_append, progressCalls, h1] using h2

/-- The loop over a concatenation is the loop over the second part after the
loop over the first. -/
theorem evaluateLoop_append (w : World) (hasCallback : Bool) (total : Nat)
    (l1 l2 : List Course) (i : Nat) (tr : Trace) :
    evaluateLoop w hasCallback total i (l1 ++ l2) tr =
      evaluateLoop w hasCallback total (i + l1.length) l2
        (evaluateLoop w hasCallback total i l1 tr) := by
  induction l1 generalizing i tr with
  | nil => simp [evaluateLoop]
  | cons c rest ih =>
    have hc : c :: rest ++ l2 = c :: (rest ++ l2) := rfl
    rw [hc]
    simp only [evaluateLoop, List.length_cons]
    split
    · rw [ih]
      congr 1
      omega
    · rw [ih]
      congr 1
      omega

/-- One turn of the loop: the start callback, the attempt, the final
callback, and the delay after a success. -/
theorem evaluateLoop_single (w : World) (total i : Nat) (course : Course) (tr : Trace) :
    evaluateLoop w true total i [course] tr =
      (EvaluateCourse w course
        (tr ++ [Event.progress (i + 1) total ("正在评教: " ++ course.KCM)])).2 ++
      [Event.progress (i + 1) total (finalStatus course
        (EvaluateCourse w course
          (tr ++ [Event.progress (i + 1) total ("正在评教: " ++ course.KCM)])).1)] ++
      finalDelay (EvaluateCourse w course
        (tr ++ [Event.progress (i + 1) total ("正在评教: " ++ course.KCM)])).1 := by
  simp only [evaluateLoop, report, if_true]
  generalize EvaluateCourse w course _ = a
  obtain ⟨e, tr2⟩ := a
  cases e <;> simp [evaluateLoop, finalStatus, finalDelay]

/-- The trace of the batch one position further. -/
theorem batchTraceAt_succ (w : World) (courses : List Course) (tr : Trace) (i : Nat)
    (course : Course) (h : courses[i]? = some course) :
    batchTraceAt w courses tr (i + 1) =
      (attemptAt w courses tr i course).2 ++
      [Event.progress (i + 1) courses.length
        (finalStatus course (attemptAt w courses tr i course).1)] ++
      finalDelay (attemptAt w courses tr i course).1 := by
  have hi : i < courses.length := (List.getElem?_eq_some.1 h).1
  have hlen : (courses.take i).length = i := by
    rw [List.length_take]
    omega
  unfold batchTraceAt attemptAt
  rw [List.take_succ, h, Option.toList, evaluateLoop_append, hlen, Nat.zero_add,
    evaluateLoop_single]
  rfl

theorem startsWithChars_append (p s : List Char) : startsWithChars (p ++ s) p = true := by
  induction p with
  | nil => cases s <;> rfl
  | cons c rest ih => simp [startsWithChars, ih]

theorem finalStatus_none (course : Course) :
    stringsHasPrefix (finalStatus course none) "评教完成" = true := by
  have h : (finalStatus course none).data = "评教完成".data ++ (": " ++ course.KCM).data := by
    simp only [finalStatus, String.data_append]
    rfl
  unfold stringsHasPrefix
  rw [h]
  exact startsWithChars_append _ _

theorem finalStatus_some (course : Course) (err : String) :
    stringsHasPrefix (finalStatus course (some err)) "评教失败" = true := by
  have h : (finalStatus course (some err)).data =
      "评教失败".data ++ (": " ++ course.KCM ++ " - " ++ err).data := by
    simp only [finalStatus, String.data_append]
    rfl
  unfold stringsHasPrefix
  rw [h]
  exact startsWithChars_append _ _

theorem batchCalls_length (w : World) (courses : List Course) (tr : Trace) (k : Nat)
    (hk : k ≤ courses.length) : (batchCalls w courses tr k).length = 2 * k := by
  induction k with
  | zero => rfl
  | succ k ih =>
    have hlt : k < courses.length := hk
    simp only [batchCalls, List.getElem?_eq_getElem hlt, List.length_append,
      ih (Nat.le_of_lt hlt)]
    simp
    omega

theorem progressCalls_batchTraceAt (w : World) (courses : List Course) (tr : Trace)
    (k : Nat) (hk : k ≤ courses.length) :
    progressCalls (batchTraceAt w courses tr k) =
      progressCalls tr ++ batchCalls w courses tr k := by
  induction k with
  | zero => simp [batchTraceAt, evaluateLoop, batchCalls]
  | succ k ih =>
    have hlt : k < courses.length := hk
    have hget : courses[k]? = some courses[k] := List.getElem?_eq_getElem hlt
    rw [batchTraceAt_succ w courses tr k courses[k] hget]
    have hA : progressCalls (attemptAt w courses tr k courses[k]).2 =
        progressCalls tr ++ batchCalls w courses tr k ++
          [(k + 1, courses.length, "正在评教: " ++ courses[k].KCM)] := by
      unfold attemptAt
      rw [progressCalls_EvaluateCourse, progressCalls_append, ih (Nat.le_of_lt hlt)]
      rfl
    have hD : ∀ e : Option String, progressCalls (finalDelay e) = [] := by
      intro e
      cases e <;> rfl
    simp only [progressCalls_append, hA, hD, batchCalls, hget, progressCalls]
    simp

theorem batchCalls_get (w : World) (courses : List Course) (tr : Trace) (k i : Nat)
    (course : Course) (hk : k ≤ courses.length) (hik : i < k)
    (h : courses[i]? = some course) :
    (batchCalls w courses tr k)[2 * i]? =
      some (i + 1, courses.length, "正在评教: " ++ course.KCM) ∧
    (batchCalls w courses tr k)[2 * i + 1]? =
      some (i + 1, courses.length,
        finalStatus course (attemptAt w courses tr i course).1) := by
  induction k with
  | zero => omega
  | succ k ih =>
    have hlt : k < courses.length := hk
    have hlen := batchCalls_length w courses tr k (Nat.le_of_lt hlt)
    by_cases hik' : i < k
    · obtain ⟨h1, h2⟩ := ih (Nat.le_of_lt hlt) hik'
      simp only [batchCalls]
      rw [List.getElem?_append_left (by omega), List.getElem?_append_left (by omega)]
      exact ⟨h1, h2⟩
    · have hik2 : i = k := by omega
      subst hik2
      simp only [batchCalls, h]
      rw [List.getElem?_append_right (by omega), List.getElem?_append_right (by omega), hlen]
      simp

theorem pushCapture_length (capture : Bool) (acc : List Char) (caps : List String) :
    (pushCapture capture acc caps).length = caps.length + (if capture then 1 else 0) := by
  cases capture <;> simp [pushCapture]

/-- A starred class adds its capture, when it has one, to those of the
continuation. -/
theorem starRun_caps_length (k : List Char → List String → Option MatchResult)
    (cls : CharClass) (greedy capture : Bool) (n : Nat)
    (hk : ∀ input caps r, k input caps = some r → r.2.length = caps.length + n)
    (input acc : List Char) (caps : List String) (r : MatchResult)
    (h : starRun k cls greedy capture input acc caps = some r) :
    r.2.length = caps.length + (if capture then 1 else 0) + n := by
  induction input generalizing acc with
  | nil =>
    simp only [starRun] at h
    rw [hk _ _ _ h, pushCapture_length]
  | cons c cs ih =>
    simp only [starRun] at h
    have hstop : ∀ r', k (c :: cs) (pushCapture capture acc caps) = some r' →
        r'.2.length = caps.length + (if capture then 1 else 0) + n := by
      intro r' h'
      rw [hk _ _ _ h', pushCapture_length]
    split at h
    · split at h
      · split at h
        · rename_i r' heq
          cases h
          exact ih _ heq
        · exact hstop _ h
      · split at h
        · rename_i r' heq
          cases h
          exact hstop _ heq
        · exact ih _ h
    · exact hstop _ h

/-- A match records one text per capture group. -/
theorem matchHere_caps_length (re : List Atom) (input : List Char) (caps : List String)
    (r : MatchResult) (h : matchHere re input caps = some r) :
    r.2.length = caps.length + captureCount re := by
  induction re generalizing input caps r with
  | nil =>
    simp only [matchHere, Option.some.injEq] at h
    subst h
    simp [captureCount]
  | cons a rest ih =>
    cases a with
    | lit c =>
      cases input with
      | nil => simp [matchHere] at h
      | cons d ds =>
        simp only [matchHere] at h
        split at h
        · simpa [captureCount] using ih _ _ _ h
        · cases h
    | star cls greedy capture =>
      simp only [matchHere] at h
      have := starRun_caps_length (matchHere rest) cls greedy capture (captureCount rest)
        (fun input caps r hr => ih input caps r hr) input [] caps r h
      simp only [captureCount]
      omega

theorem submatchHere_length (re : List Atom) (input : List Char) (m : List String) (n : Nat)
    (h : submatchHere re input = some (m, n)) : m.length = 1 + captureCount re := by
  unfold submatchHere at h
  split at h
  · cases h
  · rename_i rest caps heq
    simp only [Option.some.injEq, Prod.mk.injEq] at h
    obtain ⟨h1, _⟩ := h
    subst h1
    have := matchHere_caps_length re input [] (rest, caps) heq
    simp at this
    simp [this]
    omega

theorem findAllChars_length (re : List Atom) (input : List Char) (skip : Nat)
    (m : List String) (h : m ∈ findAllChars re input skip) :
    m.length = 1 + captureCount re := by
  induction input generalizing skip with
  | nil => simp [findAllChars] at h
  | cons c cs ih =>
    cases skip with
    | succ s =>
      simp only [findAllChars] at h
      exact ih _ h
    | zero =>
      simp only [findAllChars] at h
      split at h
      · rename_i m' n heq
        rcases List.mem_cons.1 h with h1 | h1
        · subst h1
          exact submatchHere_length re _ _ _ heq
        · exact ih _ h1
      · exact ih _ h

/-- Every match of `FindAllStringSubmatch` holds the matched text and one text
per capture group. -/
theorem FindAllStringSubmatch_length (re : List Atom) (s : String) (m : List String)
    (h : m ∈ FindAllStringSubmatch re s) : m.length = 1 + captureCount re :=
  findAllChars_length re s.data 0 m h

theorem findFirstChars_length (re : List Atom) (input : List Char) (m : List String)
    (h : findFirstChars re input = some m) : m.length = 1 + captureCount re := by
  induction input with
  | nil =>
    simp only [findFirstChars, Option.map_eq_some'] at h
    obtain ⟨⟨m', n⟩, h1, h2⟩ := h
    simp only at h2
    subst h2
    exact submatchHere_length re _ _ _ h1
  | cons c cs ih =>
    simp only [findFirstChars] at h
    split at h
    · rename_i m' n heq
      cases h
      exact submatchHere_length re _ _ _ heq
    · exact ih h

/-- A match of `FindStringSubmatch` holds the matched text and one text per
capture group. -/
theorem FindStringSubmatch_length (re : List Atom) (s : String) (m : List String)
    (h : FindStringSubmatch re s = some m) : m.length = 1 + captureCount re :=
  findFirstChars_length re s.data m h

theorem captureCount_radioRegex : captureCount radioRegex = 2 := by decide

theorem captureCount_checkboxRegex : captureCount checkboxRegex = 2 := by decide

theorem captureCount_textInputRegex : captureCount textInputRegex = 1 := by decide

theorem getKey_eq_none {ν : Type} (m : List (String × ν)) (k : String)
    (h : k ∉ m.map Prod.fst) : getKey m k = none := by
  induction m with
  | nil => rfl
  | cons b rest ih =>
    obtain ⟨k0, v0⟩ := b
    simp only [List.map_cons, List.mem_cons, not_or] at h
    have h0 : ¬ k0 = k := fun e => h.1 e.symm
    simp [getKey, h0, ih h.2]

/-- A name already processed keeps its binding through the radio loop. -/
theorem getKey_radioLoop_processed (found : List (List String)) (formData : FormData)
    (processed : List String) (n : String) (hn : n ∈ processed) :
    getKey (radioLoop found formData processed) n = getKey formData n := by
  induction found generalizing formData processed with
  | nil => rfl
  | cons m rest ih =>
    simp only [radioLoop]
    split
    · split
      · rename_i hnot
        have hne : m.getD 1 "" ≠ n := by
          intro e
          rw [e] at hnot
          simp [hn] at hnot
        rw [ih _ _ (List.mem_cons_of_mem _ hn), getKey_setKey_ne _ _ _ _ hne]
      · exact ih _ _ hn
    · exact ih _ _ hn

/-- A name that no match carries keeps its binding through the radio loop. -/
theorem getKey_radioLoop_absent (found : List (List String)) (formData : FormData)
    (processed : List String) (n : String) (hn : ∀ m ∈ found, m.getD 1 "" ≠ n) :
    getKey (radioLoop found formData processed) n = getKey formData n := by
  induction found generalizing formData processed with
  | nil => rfl
  | cons m rest ih =>
    have hm : m.getD 1 "" ≠ n := hn m (List.mem_cons_self _ _)
    have hrest : ∀ x ∈ rest, x.getD 1 "" ≠ n := fun x hx => hn x (List.mem_cons_of_mem _ hx)
    simp only [radioLoop]
    split
    · split
      · rw [ih _ _ hrest, getKey_setKey_ne _ _ _ _ hm]
      · exact ih _ _ hrest
    · exact ih _ _ hrest

/-- The radio loop binds a name that is not yet processed to the value of the
first match that carries it. -/
theorem getKey_radioLoop_first (found : List (List String)) (formData : FormData)
    (processed : List String) (n : String) (hn : n ∉ processed)
    (hlen : ∀ m ∈ found, m.length > 2) (hex : ∃ m ∈ found, m.getD 1 "" = n) :
    ∃ pre m post, found = pre ++ m :: post ∧ (∀ x ∈ pre, x.getD 1 "" ≠ n) ∧
      m.getD 1 "" = n ∧
      getKey (radioLoop found formData processed) n = some (FormValue.str (m.getD 2 "")) := by
  induction found generalizing formData processed with
  | nil =>
    obtain ⟨m, hm, _⟩ := hex
    cases hm
  | cons m rest ih =>
    have hm : m.length > 2 := hlen m (List.mem_cons_self _ _)
    have hrest : ∀ x ∈ rest, x.length > 2 := fun x hx => hlen x (List.mem_cons_of_mem _ hx)
    by_cases hname : m.getD 1 "" = n
    · refine ⟨[], m, rest, rfl, by simp, hname, ?_⟩
      have hnot : (!processed.contains (m.getD 1 "")) = true := by
        rw [hname]
        simp [hn]
      simp only [radioLoop, hm, if_true, hnot]
      rw [getKey_radioLoop_processed _ _ _ n (by rw [hname]; exact List.mem_cons_self _ _),
        hname, getKey_setKey_self]
    · have hex' : ∃ x ∈ rest, x.getD 1 "" = n := by
        obtain ⟨x, hx, hxn⟩ := hex
        rcases List.mem_cons.1 hx with h1 | h1
        · subst h1
          exact absurd hxn hname
        · exact ⟨x, h1, hxn⟩
      simp only [radioLoop, hm, if_true]
      split
      · have hn' : n ∉ m.getD 1 "" :: processed := by
          simp only [List.mem_cons, not_or]
          exact ⟨fun e => hname e.symm, hn⟩
        obtain ⟨pre, x, post, h1, h2, h3, h4⟩ := ih _ _ hn' hrest hex'
        refine ⟨m :: pre, x, post, by rw [h1]; rfl, ?_, h3, h4⟩
        intro y hy
        rcases List.mem_cons.1 hy with h5 | h5
        · subst h5
          exact hname
        · exact h2 y h5
      · obtain ⟨pre, x, post, h1, h2, h3, h4⟩ := ih formData _ hn hrest hex'
        refine ⟨m :: pre, x, post, by rw [h1]; rfl, ?_, h3, h4⟩
        intro y hy
        rcases List.mem_cons.1 hy with h5 | h5
        · subst h5
          exact hname
        · exact h2 y h5

/-- The keys of `checkboxData` are names of checkbox matches. -/
theorem mem_keys_checkboxLoop (found : List (List String))
    (checkboxData : List (String × List String)) (n : String)
    (h : n ∈ (checkboxLoop found checkboxData).map Prod.fst) :
    n ∈ checkboxData.map Prod.fst ∨ ∃ m ∈ found, m.getD 1 "" = n := by
  induction found generalizing checkboxData with
  | nil => exact Or.inl h
  | cons m rest ih =>
    have hlift : (∃ x ∈ rest, x.getD 1 "" = n) → ∃ x ∈ m :: rest, x.getD 1 "" = n := by
      rintro ⟨x, hx, hxn⟩
      exact ⟨x, List.mem_cons_of_mem _ hx, hxn⟩
    simp only [checkboxLoop] at h
    split at h
    · split at h
      · rcases ih _ h with h1 | h1
        · rcases mem_keys_setKey _ _ _ _ h1 with h2 | h2
          · exact Or.inr ⟨m, List.mem_cons_self _ _, h2.symm⟩
          · exact Or.inl h2
        · exact Or.inr (hlift h1)
      · rcases ih _ h with h1 | h1
        · exact Or.inl h1
        · exact Or.inr (hlift h1)
    · rcases ih _ h with h1 | h1
      · exact Or.inl h1
      · exact Or.inr (hlift h1)

theorem nodup_keys_checkboxLoop (found : List (List String))
    (checkboxData : List (String × List String))
    (hm : (checkboxData.map Prod.fst).Nodup) :
    ((checkboxLoop found checkboxData).map Prod.fst).Nodup := by
  induction found generalizing checkboxData with
  | nil => simpa [checkboxLoop] using hm
  | cons m rest ih =>
    simp only [checkboxLoop]
    split
    · split
      · exact ih _ (nodup_keys_setKey _ _ _ hm)
      · exact ih _ hm
    · exact ih _ hm

/-- The copy of `checkboxData` into the form data: a checkbox name is bound
to its list of values, every other name keeps its binding. -/
theorem getKey_checkboxCopy (checkboxData : List (String × List String))
    (formData : FormData) (n : String) (hm : (checkboxData.map Prod.fst).Nodup) :
    getKey (checkboxCopy checkboxData formData) n =
      match getKey checkboxData n with
      | some values => some (FormValue.strs values)
      | none => getKey formData n := by
  induction checkboxData generalizing formData with
  | nil => rfl
  | cons b rest ih =>
    obtain ⟨name, values⟩ := b
    simp only [List.map_cons, List.nodup_cons] at hm
    simp only [checkboxCopy]
    rw [ih _ hm.2]
    by_cases h : name = n
    · subst h
      simp [getKey, getKey_eq_none rest name hm.1, getKey_setKey_self]
    · simp [getKey, h, getKey_setKey_ne _ _ _ _ h]

/-- A name that no match carries keeps its binding through the text loop. -/
theorem getKey_textLoop_absent (found : List (List String)) (formData : FormData)
    (n : String) (hn : ∀ m ∈ found, m.getD 1 "" ≠ n) :
    getKey (textLoop found formData) n = getKey formData n := by
  induction found generalizing formData with
  | nil => rfl
  | cons m rest ih =>
    have hm : m.getD 1 "" ≠ n := hn m (List.mem_cons_self _ _)
    have hrest : ∀ x ∈ rest, x.getD 1 "" ≠ n := fun x hx => hn x (List.mem_cons_of_mem _ hx)
    simp only [textLoop]
    split
    · rw [ih _ hrest, getKey_setKey_ne _ _ _ _ hm]
    · exact ih _ hrest

/-- A name other than that of the comment area keeps its binding through the
text area step. -/
theorem getKey_parseTextarea_absent (htmlContent : String) (formData : FormData)
    (n : String)
    (hn : ∀ m, FindStringSubmatch textareaRegex htmlContent = some m → m.getD 1 "" ≠ n) :
    getKey (parseTextarea htmlContent formData) n = getKey formData n := by
  unfold parseTextarea
  split
  · rename_i found heq
    split
    · exact getKey_setKey_ne _ _ _ _ (hn found heq)
    · rfl
  · rfl

/-- The lookup in the result of `parseEvaluationForm`, for a name that is
neither a numeric input, nor the comment area, nor `compare`: the checkbox
values when the name is a key of `checkboxData`, else the binding left by the
radio loop. -/
theorem getKey_parseEvaluationForm (htmlContent : String) (n : String)
    (hText : ∀ m ∈ FindAllStringSubmatch textInputRegex htmlContent, m.getD 1 "" ≠ n)
    (hArea : ∀ m, FindStringSubmatch textareaRegex htmlContent = some m → m.getD 1 "" ≠ n)
    (hCompare : n ≠ "compare") :
    getKey (parseEvaluationForm htmlContent).1 n =
      match getKey (checkboxLoop (FindAllStringSubmatch checkboxRegex htmlContent) []) n with
      | some values => some (FormValue.strs values)
      | none =>
        getKey (radioLoop (FindAllStringSubmatch radioRegex htmlContent)
          (setKey (parseKtid htmlContent (parseWjbm htmlContent
            (parseToken htmlContent []))) "tjcs" (FormValue.str "0")) []) n := by
  simp only [parseEvaluationForm]
  rw [getKey_setKey_ne _ _ _ _ (Ne.symm hCompare), getKey_parseTextarea_absent _ _ _ hArea,
    getKey_textLoop_absent _ _ _ hText,
    getKey_checkboxCopy _ _ _ (nodup_keys_checkboxLoop _ [] (by simp))]

theorem checkboxValues_cons (m : List String) (rest : List (List String)) (n : String) :
    checkboxValues (m :: rest) n =
      (if m.getD 1 "" = n ∧ m.getD 2 "" ≠ "K_以上均无" then [m.getD 2 ""] else []) ++
        checkboxValues rest n := by
  unfold checkboxValues
  by_cases h1 : m.getD 1 "" = n
  · by_cases h2 : m.getD 2 "" = "K_以上均无"
    · simp [-List.getD_eq_getElem?_getD, List.filter_cons, h1, h2]
    · simp [-List.getD_eq_getElem?_getD, List.filter_cons, h1, h2]
  · simp [-List.getD_eq_getElem?_getD, List.filter_cons, h1]

/-- The checkbox loop appends to the entry of a name the values captured for
it, and leaves the entry as it is when there are none. -/
theorem getKey_checkboxLoop (found : List (List String))
    (checkboxData : List (String × List String)) (n : String)
    (hlen : ∀ m ∈ found, m.length > 2) :
    getKey (checkboxLoop found checkboxData) n =
      if checkboxValues found n = [] then getKey checkboxData n
      else some ((getKey checkboxData n).getD [] ++ checkboxValues found n) := by
  induction found generalizing checkboxData with
  | nil => simp [checkboxLoop, checkboxValues]
  | cons m rest ih =>
    have hm : m.length > 2 := hlen m (List.mem_cons_self _ _)
    have hrest : ∀ x ∈ rest, x.length > 2 := fun x hx => hlen x (List.mem_cons_of_mem _ hx)
    rw [checkboxValues_cons]
    simp only [checkboxLoop, hm, if_true]
    by_cases h2 : m.getD 2 "" = "K_以上均无"
    · simp [-List.getD_eq_getElem?_getD, h2, ih _ hrest]
    · by_cases h1 : m.getD 1 "" = n
      · subst h1
        simp only [h2, ne_eq, not_false_eq_true, if_true, and_self, ih _ hrest,
          getKey_setKey_self, Option.getD_some]
        by_cases h3 : checkboxValues rest (m.getD 1 "") = []
        · simp [h3]
        · simp [h3]
      · simp only [h2, ne_eq, not_false_eq_true, if_true, h1, false_and, if_false,
          List.nil_append, ih _ hrest, getKey_setKey_ne _ _ _ _ h1]

theorem containsChars_append (pre sub : List Char) : containsChars sub (pre ++ sub) = true := by
  induction pre with
  | nil =>
    cases sub with
    | nil => rfl
    | cons c cs =>
      have h := startsWithChars_append (c :: cs) []
      rw [List.append_nil] at h
      simp [containsChars, h]
  | cons c rest ih => simp [containsChars, ih]

/-- A text contains each of its final segments. -/
theorem stringsContains_append (a b : String) : stringsContains (a ++ b) b = true := by
  unfold stringsContains
  rw [String.data_append]
  exact containsChars_append _ _

/-- The fields of an entry carry the key of the entry. -/
theorem filter_fieldsOf_ne (k k' : String) (v : FormValue) (h : k ≠ k') :
    (fieldsOf k' v).filter (fun f => f.1 = k) = [] := by
  cases v with
  | str s => simp [fieldsOf, Ne.symm h]
  | strs l => simp [fieldsOf, Ne.symm h]

/-- An assignment to the key `k'` leaves the fields of every other key as they
are. -/
theorem filter_multipartFields_setKey (m : FormData) (k k' : String) (v : FormValue)
    (h : k ≠ k') :
    (multipartFields (setKey m k' v)).filter (fun f => f.1 = k) =
      (multipartFields m).filter (fun f => f.1 = k) := by
  induction m with
  | nil => simp [setKey, multipartFields, filter_fieldsOf_ne k k' v h]
  | cons b rest ih =>
    obtain ⟨k0, v0⟩ := b
    by_cases h0 : k0 = k'
    · subst h0
      simp [setKey, multipartFields, filter_fieldsOf_ne k k0 _ h]
    · simp only [setKey, h0, if_false, multipartFields, List.filter_append, ih]

/-- The fields of a key bound to a string, in a map with distinct keys. -/
theorem mem_multipartFields_str (m : FormData) (k s : String)
    (hm : (m.map Prod.fst).Nodup) (hk : getKey m k = some (FormValue.str s)) (v : String) :
    (k, v) ∈ multipartFields m ↔ v = s := by
  rw [mem_multipartFields]
  constructor
  · rintro ⟨val, hmem, hfield⟩
    have hval := (mem_iff_getKey _ _ _ hm).1 hmem
    rw [hk] at hval
    cases hval
    simpa [fieldsOf] using hfield
  · intro hv
    subst hv
    exact ⟨FormValue.str v, (mem_iff_getKey _ _ _ hm).2 hk, by simp [fieldsOf]⟩

/-- The form data after a submission: the assignment of `tjcs`, and of
`tokenValue` when a DRAFT response carries a token. -/
theorem submitEvaluation_formData (w : World) (formData : FormData) (tjcs : String)
    (tr : Trace) :
    (submitEvaluation w formData tjcs tr).1.1 = setKey formData "tjcs" (FormValue.str tjcs) ∨
    ∃ token, (submitEvaluation w formData tjcs tr).1.1 =
      setKey (setKey formData "tjcs" (FormValue.str tjcs)) "tokenValue"
        (FormValue.str token) := by
  unfold submitEvaluation
  simp only
  split
  · exact Or.inl rfl
  · split
    · exact Or.inl rfl
    · split
      · exact Or.inl rfl
      · split
        · exact Or.inl rfl
        · split
          · split <;> exact Or.inl rfl
          · split
            · exact Or.inr ⟨_, rfl⟩
            · exact Or.inl rfl

/-- A FINAL submission answered with status 200 and a JSON object. -/
theorem submitEvaluation_final (w : World) (formData : FormData) (tr : Trace)
    (body : String) (result : JSONObject)
    (hNew : w.NewRequest "POST" (postURL (setKey formData "tjcs" (FormValue.str "1"))) =
      none)
    (hDo : w.Do tr (submitRequest (setKey formData "tjcs" (FormValue.str "1"))) =
      Except.ok { StatusCode := 200, Body := Except.ok body })
    (hDec : w.decodeObject body = Except.ok result) :
    (submitEvaluation w formData "1" tr).1.2 =
      if getKey result "result" = some (JSONValue.str "ok") then none
      else some ("评教提交失败: " ++ fmtObject result) := by
  simp only [submitEvaluation, hNew, hDo, Except.bind, hDec]
  cases hres : getKey result "result" with
  | none => simp [asString]
  | some v =>
    cases v with
    | other text => simp [asString]
    | str s =>
      by_cases hs : s = "ok"
      · simp [asString, hs]
      · simp [asString, hs]

/-- A submission keeps the keys of the form data distinct. -/
theorem nodup_keys_submitEvaluation (w : World) (formData : FormData) (tjcs : String)
    (tr : Trace) (hm : (formData.map Prod.fst).Nodup) :
    (((submitEvaluation w formData tjcs tr).1.1).map Prod.fst).Nodup := by
  rcases submitEvaluation_formData w formData tjcs tr with h | ⟨token, h⟩
  · rw [h]
    exact nodup_keys_setKey _ _ _ hm
  · rw [h]
    exact nodup_keys_setKey _ _ _ (nodup_keys_setKey _ _ _ hm)

/-- A submission changes the fields of no key other than `tjcs` and
`tokenValue`. -/
theorem filter_multipartFields_submitEvaluation (w : World) (formData : FormData)
    (tjcs : String) (tr : Trace) (k : String) (h1 : k ≠ "tokenValue") (h2 : k ≠ "tjcs") :
    (multipartFields (submitEvaluation w formData tjcs tr).1.1).filter (fun f => f.1 = k) =
      (multipartFields formData).filter (fun f => f.1 = k) := by
  rcases submitEvaluation_formData w formData tjcs tr with h | ⟨token, h⟩
  · rw [h, filter_multipartFields_setKey _ _ _ _ h2]
  · rw [h, filter_multipartFields_setKey _ _ _ _ h1, filter_multipartFields_setKey _ _ _ _ h2]

/-! ## Theorems -/

/-- C1: for every list of records decoded from a status-200 listing response,
`GetEvaluationList` returns exactly the records whose `SFPG` is "0", in their
original order, each with `Index` set to its zero-based position in the
unfiltered list and the other fields unchanged. -/
theorem GetEvaluationList_pending (w : World) (tr : Trace) (body : String)
    (records : List Course)
    (hNew : w.NewRequest "POST" pjURL = none)
    (hDo : w.Do tr listRequest = Except.ok { StatusCode := 200, Body := Except.ok body })
    (hDec : w.decodeEvaluationResponse body = Except.ok records) :
    (GetEvaluationList w tr).1 =
      Except.ok ((records.enum.filter (fun p => p.2.SFPG = "0")).map
        (fun p => { p.2 with Index := (p.1 : Int) })) := by
  simp [GetEvaluationList, hNew, hDo, Except.bind, hDec, pendingLoop_eq, List.enum]

/-- C1 witness: a listing of three records, the second one evaluated. -/
theorem GetEvaluationList_pending_witness :
    (GetEvaluationList (scriptedWorld [okResponse sampleListBody]) []).1 =
      Except.ok ((sampleRecords.enum.filter (fun p => p.2.SFPG = "0")).map
        (fun p => { p.2 with Index := (p.1 : Int) })) :=
  GetEvaluationList_pending (scriptedWorld [okResponse sampleListBody]) [] sampleListBody
    sampleRecords rfl rfl (by simp [scriptedWorld, sampleDecodeList])

/-- C2: if the user name, the password or the captcha text is empty, `Login`
returns `(false, error)` and issues no request: the trace is unchanged. -/
theorem Login_empty_input (w : World) (c : SCUClient) (captchaText : String) (tr : Trace)
    (h : c.Username = "" ∨ c.Password = "" ∨ captchaText = "") :
    Login w c captchaText tr = ((false, some "学号、密码和验证码不能为空"), tr) := by
  simp [Login, h]

/-- C2 witness: an empty captcha text. -/
theorem Login_empty_input_witness :
    Login (scriptedWorld []) sampleClient "" [] =
      ((false, some "学号、密码和验证码不能为空"), []) :=
  Login_empty_input (scriptedWorld []) sampleClient "" [] (Or.inr (Or.inr rfl))

/-- The result of `Login` once the token is fetched and the portal has
answered the login request with status `s` and body `body`. -/
theorem Login_of_response (w : World) (c : SCUClient) (captchaText : String)
    (tr tr1 : Trace) (token : String) (s : Nat) (body : String)
    (hU : c.Username ≠ "") (hP : c.Password ≠ "") (hC : captchaText ≠ "")
    (hTok : GetToken w tr = (Except.ok token, tr1))
    (hNew : w.NewRequest "POST" loginURL = none)
    (hDo : w.Do tr1 (loginRequest w c token captchaText) =
      Except.ok { StatusCode := s, Body := Except.ok body }) :
    (Login w c captchaText tr).1 = classifyLogin s body := by
  simp [Login, hU, hP, hC, hTok, hNew, hDo]

/-- C3, amended: for non-empty user name, password and captcha, a login
response whose body contains "密码错误", contains neither "欢迎您" nor
"验证码不正确", and either has a status other than 200 or contains "错误提示",
makes `Login` fail with the credentials error "用户名或密码错误". -/
theorem Login_credentials_error (w : World) (c : SCUClient) (captchaText : String)
    (tr tr1 : Trace) (token : String) (s : Nat) (body : String)
    (hU : c.Username ≠ "") (hP : c.Password ≠ "") (hC : captchaText ≠ "")
    (hTok : GetToken w tr = (Except.ok token, tr1))
    (hNew : w.NewRequest "POST" loginURL = none)
    (hDo : w.Do tr1 (loginRequest w c token captchaText) =
      Except.ok { StatusCode := s, Body := Except.ok body })
    (hBody : stringsContains body "密码错误" = true)
    (hWelcome : stringsContains body "欢迎您" = false)
    (hCaptcha : stringsContains body "验证码不正确" = false)
    (hErr : s ≠ 200 ∨ stringsContains body "错误提示" = true) :
    (Login w c captchaText tr).1 = (false, some "用户名或密码错误") := by
  rw [Login_of_response w c captchaText tr tr1 token s body hU hP hC hTok hNew hDo]
  rcases hErr with hs | he
  · simp [classifyLogin, hBody, hWelcome, hCaptcha, hs]
  · simp [classifyLogin, hBody, hWelcome, hCaptcha, he]

/-- C3 witness: a status-200 response that reports a wrong password under the
heading "错误提示". -/
theorem Login_credentials_error_witness :
    (Login (loginWorld 200 bodyWrongPassword) sampleClient "ab12" []).1 =
      (false, some "用户名或密码错误") :=
  Login_credentials_error (loginWorld 200 bodyWrongPassword) sampleClient "ab12" []
    [Event.request tokenRequest] "tok" 200 bodyWrongPassword (by decide) (by decide)
    (by decide) (by rfl) (by rfl) (by rfl) (by decide) (by decide) (by decide)
    (Or.inr (by decide))

/-- C3 as stated fails in three ways: a body that contains "密码错误" gives
success when the status is 200 and the body has neither "错误提示" nor
"验证码不正确", gives success when it also contains "欢迎您", and gives the
captcha error when it also contains "验证码不正确". -/
theorem Login_credentials_error_counterexample :
    (stringsContains bodyPasswordNote "密码错误" = true ∧
      (Login (loginWorld 200 bodyPasswordNote) sampleClient "ab12" []).1 = (true, none)) ∧
    (stringsContains bodyWelcomePassword "密码错误" = true ∧
      (Login (loginWorld 500 bodyWelcomePassword) sampleClient "ab12" []).1 =
        (true, none)) ∧
    (stringsContains bodyCaptchaPassword "密码错误" = true ∧
      (Login (loginWorld 500 bodyCaptchaPassword) sampleClient "ab12" []).1 =
        (false, some "验证码不正确")) := by
  refine ⟨⟨?_, ?_⟩, ⟨?_, ?_⟩, ⟨?_, ?_⟩⟩ <;> decide

/-- C4, amended: for non-empty user name, password and captcha and every
status, a login response whose body contains "验证码不正确" and does not contain
"欢迎您" makes `Login` fail with the captcha error "验证码不正确". -/
theorem Login_captcha_error (w : World) (c : SCUClient) (captchaText : String)
    (tr tr1 : Trace) (token : String) (s : Nat) (body : String)
    (hU : c.Username ≠ "") (hP : c.Password ≠ "") (hC : captchaText ≠ "")
    (hTok : GetToken w tr = (Except.ok token, tr1))
    (hNew : w.NewRequest "POST" loginURL = none)
    (hDo : w.Do tr1 (loginRequest w c token captchaText) =
      Except.ok { StatusCode := s, Body := Except.ok body })
    (hBody : stringsContains body "验证码不正确" = true)
    (hWelcome : stringsContains body "欢迎您" = false) :
    (Login w c captchaText tr).1 = (false, some "验证码不正确") := by
  rw [Login_of_response w c captchaText tr tr1 token s body hU hP hC hTok hNew hDo]
  simp [classifyLogin, hBody, hWelcome]

/-- C4 witness: a status-200 response that reports a wrong captcha. -/
theorem Login_captcha_error_witness :
    (Login (loginWorld 200 bodyWrongCaptcha) sampleClient "ab12" []).1 =
      (false, some "验证码不正确") :=
  Login_captcha_error (loginWorld 200 bodyWrongCaptcha) sampleClient "ab12" []
    [Event.request tokenRequest] "tok" 200 bodyWrongCaptcha (by decide) (by decide)
    (by decide) (by rfl) (by rfl) (by rfl) (by decide) (by decide)

/-- C4 as stated fails: a body that contains "验证码不正确" and also "欢迎您"
gives success. -/
theorem Login_captcha_error_counterexample :
    stringsContains bodyWelcomeCaptcha "验证码不正确" = true ∧
    (Login (loginWorld 500 bodyWelcomeCaptcha) sampleClient "ab12" []).1 = (true, none) := by
  refine ⟨?_, ?_⟩ <;> decide

/-- C5, amended: a login response with status 200 whose body contains none of
"欢迎您", "验证码不正确", "密码错误" and does not contain "错误提示" either makes
`Login` return `(true, nil)`. -/
theorem Login_unmarked_success (w : World) (c : SCUClient) (captchaText : String)
    (tr tr1 : Trace) (token : String) (body : String)
    (hU : c.Username ≠ "") (hP : c.Password ≠ "") (hC : captchaText ≠ "")
    (hTok : GetToken w tr = (Except.ok token, tr1))
    (hNew : w.NewRequest "POST" loginURL = none)
    (hDo : w.Do tr1 (loginRequest w c token captchaText) =
      Except.ok { StatusCode := 200, Body := Except.ok body })
    (_hWelcome : stringsContains body "欢迎您" = false)
    (hCaptcha : stringsContains body "验证码不正确" = false)
    (_hPassword : stringsContains body "密码错误" = false)
    (hErr : stringsContains body "错误提示" = false) :
    (Login w c captchaText tr).1 = (true, none) := by
  rw [Login_of_response w c captchaText tr tr1 token 200 body hU hP hC hTok hNew hDo]
  simp [classifyLogin, hCaptcha, hErr]

/-- C5 witness: a status-200 response without any marker. -/
theorem Login_unmarked_success_witness :
    (Login (loginWorld 200 bodyPlain) sampleClient "ab12" []).1 = (true, none) :=
  Login_unmarked_success (loginWorld 200 bodyPlain) sampleClient "ab12" []
    [Event.request tokenRequest] "tok" bodyPlain (by decide) (by decide)
    (by decide) (by rfl) (by rfl) (by rfl) (by decide) (by decide) (by decide) (by decide)

/-- C5 as stated fails: a status-200 body with the heading "错误提示" and none
of the three markers makes `Login` fail with "登录失败". -/
theorem Login_unmarked_success_counterexample :
    (stringsContains bodyErrorHeading "欢迎您" = false ∧
      stringsContains bodyErrorHeading "验证码不正确" = false ∧
      stringsContains bodyErrorHeading "密码错误" = false) ∧
    (Login (loginWorld 200 bodyErrorHeading) sampleClient "ab12" []).1 =
      (false, some "登录失败") := by
  refine ⟨⟨?_, ?_, ?_⟩, ?_⟩ <;> decide

/-- C6, amended: whatever the fetched evaluation page yields for the token,
the topic id and the questionnaire code (present, absent or empty),
`parseEvaluationForm` reports no error and `EvaluateCourse` sends the DRAFT
submission of the scraped form data to the save endpoint; it returns an error
exactly when one of the two submissions does. -/
theorem EvaluateCourse_submits_unvalidated (w : World) (course : Course) (tr : Trace)
    (html : String)
    (hNew : w.NewRequest "GET" (evaluationURL course) = none)
    (hPage : w.Do tr (pageRequest course) =
      Except.ok { StatusCode := 200, Body := Except.ok html })
    (hNewDraft : w.NewRequest "POST"
      (postURL (setKey (parseEvaluationForm html).1 "tjcs" (FormValue.str "0"))) = none) :
    (parseEvaluationForm html).2 = none ∧
    (∃ rest, (EvaluateCourse w course tr).2 =
      tr ++ [Event.request (pageRequest course),
        Event.request (submitRequest
          (setKey (parseEvaluationForm html).1 "tjcs" (FormValue.str "0")))] ++ rest) ∧
    ((EvaluateCourse w course tr).1 = none ↔
      (submitEvaluation w (parseEvaluationForm html).1 "0"
        (tr ++ [Event.request (pageRequest course)])).1.2 = none ∧
      (submitEvaluation w
        (submitEvaluation w (parseEvaluationForm html).1 "0"
          (tr ++ [Event.request (pageRequest course)])).1.1 "1"
        ((submitEvaluation w (parseEvaluationForm html).1 "0"
          (tr ++ [Event.request (pageRequest course)])).2 ++ [Event.sleep 1])).1.2 = none) := by
  have hTr := submitEvaluation_trace w (parseEvaluationForm html).1 "0"
    (tr ++ [Event.request (pageRequest course)]) hNewDraft
  rw [EvaluateCourse_of_page w course tr html hNew hPage]
  generalize submitEvaluation w (parseEvaluationForm html).1 "0"
    (tr ++ [Event.request (pageRequest course)]) = d at hTr ⊢
  obtain ⟨⟨fd, e⟩, tr2⟩ := d
  simp only at hTr
  subst hTr
  refine ⟨rfl, ?_, ?_⟩
  · cases e with
    | some err => exact ⟨[], by simp⟩
    | none =>
      obtain ⟨rest, hrest⟩ := submitEvaluation_trace_extends w fd "1"
        (tr ++ [Event.request (pageRequest course)] ++
          [Event.request (submitRequest
            (setKey (parseEvaluationForm html).1 "tjcs" (FormValue.str "0")))] ++
          [Event.sleep 1])
      refine ⟨Event.sleep 1 :: rest, ?_⟩
      simp only
      generalize submitEvaluation w fd "1" _ = f at hrest ⊢
      obtain ⟨⟨fd2, e2⟩, tr4⟩ := f
      simp only at hrest
      subst hrest
      cases e2 <;> simp
  · cases e with
    | some err => simp
    | none =>
      simp only [true_and]
      generalize submitEvaluation w fd "1" _ = f
      obtain ⟨⟨fd2, e2⟩, tr4⟩ := f
      cases e2 <;> simp

/-- C6 witness: a page without any form field; the DRAFT submission is sent
all the same. -/
theorem EvaluateCourse_submits_unvalidated_witness :
    ∃ rest, (EvaluateCourse (courseWorld pageNoFields) courseA []).2 =
      [] ++ [Event.request (pageRequest courseA),
        Event.request (submitRequest
          (setKey (parseEvaluationForm pageNoFields).1 "tjcs" (FormValue.str "0")))] ++ rest :=
  (EvaluateCourse_submits_unvalidated (courseWorld pageNoFields) courseA [] pageNoFields
    (by rfl) (by rfl) (by rfl)).2.1

/-- C6 as stated fails: for a page that yields neither token nor topic id nor
questionnaire code, and for a page that yields a token only, `EvaluateCourse`
returns no error and sends both submissions to the save endpoint. -/
theorem EvaluateCourse_submits_unvalidated_counterexample :
    (getKey (parseEvaluationForm pageNoFields).1 "tokenValue" = none ∧
      getKey (parseEvaluationForm pageNoFields).1 "ktid" = none ∧
      getKey (parseEvaluationForm pageNoFields).1 "wjbm" = none ∧
      EvaluateCourse (courseWorld pageNoFields) courseA [] =
        (none, [Event.request (pageRequest courseA),
          Event.request (submitRequest
            [("tjcs", FormValue.str "0"), ("compare", FormValue.str "")]),
          Event.sleep 1,
          Event.request (submitRequest
            [("tjcs", FormValue.str "1"), ("compare", FormValue.str ""),
              ("tokenValue", FormValue.str "T2")])])) ∧
    (getKey (parseEvaluationForm pageTokenOnly).1 "ktid" = none ∧
      getKey (parseEvaluationForm pageTokenOnly).1 "wjbm" = none ∧
      EvaluateCourse (courseWorld pageTokenOnly) courseA [] =
        (none, [Event.request (pageRequest courseA),
          Event.request (submitRequest
            [("tokenValue", FormValue.str "T"), ("tjcs", FormValue.str "0"),
              ("compare", FormValue.str "")]),
          Event.sleep 1,
          Event.request (submitRequest
            [("tokenValue", FormValue.str "T2"), ("tjcs", FormValue.str "1"),
              ("compare", FormValue.str "")])])) := by
  refine ⟨⟨?_, ?_, ?_, ?_⟩, ⟨?_, ?_, ?_⟩⟩ <;> decide

/-- C7: if the DRAFT submission is answered with status 200 and a JSON object
whose field `token` is the string `t`, the FINAL request of `EvaluateCourse`
carries `t` as the `tokenValue` query parameter of the save URL and as its
only `tokenValue` form field. -/
theorem EvaluateCourse_final_uses_new_token (w : World) (course : Course) (tr : Trace)
    (html draftBody : String) (result : JSONObject) (t : String)
    (hNew : w.NewRequest "GET" (evaluationURL course) = none)
    (hPage : w.Do tr (pageRequest course) =
      Except.ok { StatusCode := 200, Body := Except.ok html })
    (hNewDraft : w.NewRequest "POST"
      (postURL (setKey (parseEvaluationForm html).1 "tjcs" (FormValue.str "0"))) = none)
    (hDraft : w.Do (tr ++ [Event.request (pageRequest course)])
      (submitRequest (setKey (parseEvaluationForm html).1 "tjcs" (FormValue.str "0"))) =
      Except.ok { StatusCode := 200, Body := Except.ok draftBody })
    (hDec : w.decodeObject draftBody = Except.ok result)
    (hTok : getKey result "token" = some (JSONValue.str t))
    (hNewFinal : w.NewRequest "POST" (saveURLBase ++ t) = none) :
    ∃ finalReq : Request,
      (EvaluateCourse w course tr).2 =
        tr ++ [Event.request (pageRequest course),
          Event.request (submitRequest
            (setKey (parseEvaluationForm html).1 "tjcs" (FormValue.str "0"))),
          Event.sleep 1, Event.request finalReq] ∧
      finalReq.URL = saveURLBase ++ t ∧
      ("tokenValue", t) ∈ finalReq.Body ∧
      ∀ v, ("tokenValue", v) ∈ finalReq.Body → v = t := by
  have hD := submitEvaluation_draft_token w (parseEvaluationForm html).1
    (tr ++ [Event.request (pageRequest course)]) draftBody result t hNewDraft hDraft hDec hTok
  have hGet : getKey (setKey (setKey (setKey (parseEvaluationForm html).1 "tjcs"
      (FormValue.str "0")) "tokenValue" (FormValue.str t)) "tjcs" (FormValue.str "1"))
      "tokenValue" = some (FormValue.str t) := by
    rw [getKey_setKey_ne _ _ _ _ (by decide), getKey_setKey_self]
  have hURL : postURL (setKey (setKey (setKey (parseEvaluationForm html).1 "tjcs"
      (FormValue.str "0")) "tokenValue" (FormValue.str t)) "tjcs" (FormValue.str "1")) =
      saveURLBase ++ t := by
    simp [postURL, hGet, fmtS]
  have hF := submitEvaluation_trace w (setKey (setKey (parseEvaluationForm html).1 "tjcs"
      (FormValue.str "0")) "tokenValue" (FormValue.str t)) "1"
    (tr ++ [Event.request (pageRequest course)] ++
      [Event.request (submitRequest
        (setKey (parseEvaluationForm html).1 "tjcs" (FormValue.str "0")))] ++
      [Event.sleep 1]) (by rw [hURL]; exact hNewFinal)
  have hNodup : ((setKey (setKey (setKey (parseEvaluationForm html).1 "tjcs"
      (FormValue.str "0")) "tokenValue" (FormValue.str t)) "tjcs"
      (FormValue.str "1")).map Prod.fst).Nodup :=
    nodup_keys_setKey _ _ _ (nodup_keys_setKey _ _ _ (nodup_keys_setKey _ _ _
      (nodup_keys_parseEvaluationForm html)))
  refine ⟨submitRequest (setKey (setKey (setKey (parseEvaluationForm html).1 "tjcs"
      (FormValue.str "0")) "tokenValue" (FormValue.str t)) "tjcs" (FormValue.str "1")),
    ?_, ?_, ?_, ?_⟩
  · rw [EvaluateCourse_of_page w course tr html hNew hPage, hD]
    simp only
    generalize submitEvaluation w _ "1" _ = f at hF ⊢
    obtain ⟨⟨fd2, e2⟩, tr4⟩ := f
    simp only at hF
    subst hF
    cases e2 <;> simp
  · exact hURL
  · show ("tokenValue", t) ∈ multipartFields _
    rw [mem_multipartFields]
    exact ⟨FormValue.str t, (mem_iff_getKey _ _ _ hNodup).2 hGet, by simp [fieldsOf]⟩
  · intro v hv
    have hv' : ("tokenValue", v) ∈ multipartFields (setKey (setKey (setKey
        (parseEvaluationForm html).1 "tjcs" (FormValue.str "0")) "tokenValue"
        (FormValue.str t)) "tjcs" (FormValue.str "1")) := hv
    rw [mem_multipartFields] at hv'
    obtain ⟨val, hmem, hfield⟩ := hv'
    have hval := (mem_iff_getKey _ _ _ hNodup).1 hmem
    rw [hGet] at hval
    cases hval
    simpa [fieldsOf] using hfield

/-- C7 witness: `samplePage`, whose token is `T`, when the DRAFT response
carries the token `T2`. -/
theorem EvaluateCourse_final_uses_new_token_witness :
    ∃ finalReq : Request,
      (EvaluateCourse (courseWorld samplePage) courseA []).2 =
        [] ++ [Event.request (pageRequest courseA),
          Event.request (submitRequest
            (setKey (parseEvaluationForm samplePage).1 "tjcs" (FormValue.str "0"))),
          Event.sleep 1, Event.request finalReq] ∧
      finalReq.URL = saveURLBase ++ "T2" ∧
      ("tokenValue", "T2") ∈ finalReq.Body ∧
      ∀ v, ("tokenValue", v) ∈ finalReq.Body → v = "T2" :=
  EvaluateCourse_final_uses_new_token (courseWorld samplePage) courseA [] samplePage
    bodyNewToken [("token", JSONValue.str "T2")] "T2" (by rfl) (by rfl) (by rfl) (by rfl)
    (by rfl) (by rfl) (by rfl)

/-- C8, evaluated on a batch of two courses whose first attempt fails (the
page is answered with status 500) and whose second attempt succeeds: the
2-second delay follows the successful attempt only, one delay for two
courses. -/
theorem EvaluateAllCourses_skips_delay_on_failure :
    (EvaluateAllCourses batchWorld [courseA, courseB] true []).2 =
      [Event.progress 1 2 "正在评教: 高等数学",
        Event.request (pageRequest courseA),
        Event.progress 1 2 "评教失败: 高等数学 - 获取评教页面失败，状态码: 500",
        Event.progress 2 2 "正在评教: 线性代数",
        Event.request (pageRequest courseB),
        Event.request (submitRequest sampleDraftForm),
        Event.sleep 1,
        Event.request (submitRequest sampleFinalForm),
        Event.progress 2 2 "评教完成: 线性代数",
        Event.sleep 2] ∧
    delayCount (EvaluateAllCourses batchWorld [courseA, courseB] true []).2 = 1 ∧
    [courseA, courseB].length = 2 := by
  refine ⟨?_, ?_, ?_⟩ <;> decide

/-- C9: for every batch of `n` courses, whatever the outcomes of the attempts,
`EvaluateAllCourses` (with a callback) returns `nil`; its run is the
succession, in list order, of one attempt per course; and it calls the
callback exactly `2n` times: for the course at zero-based position `i` first
`(i+1, n, "正在评教: <KCM>")` and then `(i+1, n, m)`, where `m` starts with
"评教完成" if the attempt returned `nil` and with "评教失败" if it returned an
error. -/
theorem EvaluateAllCourses_reports_every_course (w : World) (courses : List Course)
    (tr : Trace) :
    (EvaluateAllCourses w courses true tr).1 = none ∧
    batchTraceAt w courses tr 0 = tr ∧
    batchTraceAt w courses tr courses.length = (EvaluateAllCourses w courses true tr).2 ∧
    (∃ calls : List (Nat × Nat × String),
      progressCalls (EvaluateAllCourses w courses true tr).2 = progressCalls tr ++ calls ∧
      calls.length = 2 * courses.length ∧
      ∀ (i : Nat) (course : Course), courses[i]? = some course →
        calls[2 * i]? = some (i + 1, courses.length, "正在评教: " ++ course.KCM) ∧
        ∃ m : String, calls[2 * i + 1]? = some (i + 1, courses.length, m) ∧
          batchTraceAt w courses tr (i + 1) =
            (attemptAt w courses tr i course).2 ++
              [Event.progress (i + 1) courses.length m] ++
              (if (attemptAt w courses tr i course).1 = none then [Event.sleep 2] else []) ∧
          ((attemptAt w courses tr i course).1 = none →
            stringsHasPrefix m "评教完成" = true) ∧
          ((attemptAt w courses tr i course).1 ≠ none →
            stringsHasPrefix m "评教失败" = true)) := by
  have hEnd : batchTraceAt w courses tr courses.length =
      (EvaluateAllCourses w courses true tr).2 := by
    simp [batchTraceAt, EvaluateAllCourses]
  refine ⟨rfl, by simp [batchTraceAt, evaluateLoop], hEnd, batchCalls w courses tr courses.length,
    ?_, batchCalls_length w courses tr _ (Nat.le_refl _), ?_⟩
  · rw [← hEnd]
    exact progressCalls_batchTraceAt w courses tr _ (Nat.le_refl _)
  · intro i course h
    have hi : i < courses.length := (List.getElem?_eq_some.1 h).1
    obtain ⟨h1, h2⟩ := batchCalls_get w courses tr courses.length i course (Nat.le_refl _) hi h
    refine ⟨h1, finalStatus course (attemptAt w courses tr i course).1, h2, ?_, ?_, ?_⟩
    · rw [batchTraceAt_succ w courses tr i course h]
      cases (attemptAt w courses tr i course).1 <;> simp [finalDelay]
    · intro hnone
      rw [hnone]
      exact finalStatus_none course
    · intro hsome
      cases hres : (attemptAt w courses tr i course).1 with
      | none => exact absurd hres hsome
      | some err => exact finalStatus_some course err

/-- C9 witness: a batch of two courses, the first of which fails. -/
theorem EvaluateAllCourses_reports_every_course_witness :
    (EvaluateAllCourses batchWorld [courseA, courseB] true []).1 = none ∧
    batchTraceAt batchWorld [courseA, courseB] [] 0 = [] :=
  ⟨(EvaluateAllCourses_reports_every_course batchWorld [courseA, courseB] []).1,
    (EvaluateAllCourses_reports_every_course batchWorld [courseA, courseB] []).2.1⟩

/-- C10: on the sample form (a hidden input `tokenValue` with value `T`, the
radio group `q1` with values `A` then `B`, the checkbox group `q2` with values
`X` then `K_以上均无`, the text input `q3` with the placeholder
"请输入1-100的整数"), `parseEvaluationForm` returns no error and a map with
`tokenValue` = `T`, `q1` = `A`, `q2` = `[X]` and `q3` = `100`. -/
theorem parseEvaluationForm_sampleForm :
    (FindAllStringSubmatch radioRegex sampleForm).map (List.drop 1) =
      [["q1", "A"], ["q1", "B"]] ∧
    (FindAllStringSubmatch checkboxRegex sampleForm).map (List.drop 1) =
      [["q2", "X"], ["q2", "K_以上均无"]] ∧
    (FindAllStringSubmatch textInputRegex sampleForm).map (List.drop 1) = [["q3"]] ∧
    (parseEvaluationForm sampleForm).2 = none ∧
    getKey (parseEvaluationForm sampleForm).1 "tokenValue" = some (FormValue.str "T") ∧
    getKey (parseEvaluationForm sampleForm).1 "q1" = some (FormValue.str "A") ∧
    getKey (parseEvaluationForm sampleForm).1 "q2" = some (FormValue.strs ["X"]) ∧
    getKey (parseEvaluationForm sampleForm).1 "q3" = some (FormValue.str "100") ∧
    (parseEvaluationForm sampleForm).1.map Prod.fst =
      ["tokenValue", "tjcs", "q1", "q2", "q3", "compare"] := by
  refine ⟨?_, ?_, ?_, ?_, ?_, ?_, ?_, ?_, ?_⟩ <;> decide

/-- C11: for every HTML text and every field name `n` captured by the radio
pattern, not captured by the checkbox, numeric-text or textarea patterns and
different from `compare`, `parseEvaluationForm` maps `n` to the value of the
first radio match named `n` in document order, whatever the later matches. -/
theorem parseEvaluationForm_radio_first (htmlContent n : String)
    (hRadio : ∃ m ∈ FindAllStringSubmatch radioRegex htmlContent, m.getD 1 "" = n)
    (hCheckbox : ∀ m ∈ FindAllStringSubmatch checkboxRegex htmlContent, m.getD 1 "" ≠ n)
    (hText : ∀ m ∈ FindAllStringSubmatch textInputRegex htmlContent, m.getD 1 "" ≠ n)
    (hArea : ∀ m, FindStringSubmatch textareaRegex htmlContent = some m → m.getD 1 "" ≠ n)
    (hCompare : n ≠ "compare") :
    ∃ pre m post, FindAllStringSubmatch radioRegex htmlContent = pre ++ m :: post ∧
      (∀ x ∈ pre, x.getD 1 "" ≠ n) ∧ m.getD 1 "" = n ∧
      getKey (parseEvaluationForm htmlContent).1 n = some (FormValue.str (m.getD 2 "")) := by
  have hNone : getKey (checkboxLoop (FindAllStringSubmatch checkboxRegex htmlContent) []) n =
      none := by
    apply getKey_eq_none
    intro hmem
    rcases mem_keys_checkboxLoop _ _ _ hmem with h1 | ⟨m, hm, hmn⟩
    · simp at h1
    · exact hCheckbox m hm hmn
  have hlen : ∀ m ∈ FindAllStringSubmatch radioRegex htmlContent, m.length > 2 := by
    intro m hm
    rw [FindAllStringSubmatch_length _ _ _ hm, captureCount_radioRegex]
    decide
  obtain ⟨pre, m, post, h1, h2, h3, h4⟩ := getKey_radioLoop_first
    (FindAllStringSubmatch radioRegex htmlContent)
    (setKey (parseKtid htmlContent (parseWjbm htmlContent (parseToken htmlContent [])))
      "tjcs" (FormValue.str "0")) [] n (by simp) hlen hRadio
  refine ⟨pre, m, post, h1, h2, h3, ?_⟩
  rw [getKey_parseEvaluationForm htmlContent n hText hArea hCompare, hNone]
  exact h4

/-- C11 witness: the radio group `q1` of `samplePage`, with the values `A`
then `B`. -/
theorem parseEvaluationForm_radio_first_witness :
    ∃ pre m post, FindAllStringSubmatch radioRegex samplePage = pre ++ m :: post ∧
      (∀ x ∈ pre, x.getD 1 "" ≠ "q1") ∧ m.getD 1 "" = "q1" ∧
      getKey (parseEvaluationForm samplePage).1 "q1" = some (FormValue.str (m.getD 2 "")) :=
  parseEvaluationForm_radio_first samplePage "q1" (by decide) (by decide) (by decide)
    (by
      intro m h
      have h0 : FindStringSubmatch textareaRegex samplePage =
          some ["<textarea name=\"zgpj\" class=\"form-control value_element\" rows=\"3\"></textarea>",
            "zgpj"] := by decide
      rw [h0] at h
      cases h
      decide)
    (by decide)

/-- C12: for every HTML text and every field name `n` captured by the
checkbox pattern with at least one value other than `K_以上均无`, not captured
by the numeric-text or textarea patterns and different from `compare`,
`parseEvaluationForm` maps `n` to the list of all values captured for `n` by
the checkbox pattern, in document order and with duplicates kept, without
the occurrences of `K_以上均无`. -/
theorem parseEvaluationForm_checkbox_values (htmlContent n : String)
    (hBox : ∃ m ∈ FindAllStringSubmatch checkboxRegex htmlContent,
      m.getD 1 "" = n ∧ m.getD 2 "" ≠ "K_以上均无")
    (hText : ∀ m ∈ FindAllStringSubmatch textInputRegex htmlContent, m.getD 1 "" ≠ n)
    (hArea : ∀ m, FindStringSubmatch textareaRegex htmlContent = some m → m.getD 1 "" ≠ n)
    (hCompare : n ≠ "compare") :
    getKey (parseEvaluationForm htmlContent).1 n =
      some (FormValue.strs
        (checkboxValues (FindAllStringSubmatch checkboxRegex htmlContent) n)) := by
  have hlen : ∀ m ∈ FindAllStringSubmatch checkboxRegex htmlContent, m.length > 2 := by
    intro m hm
    rw [FindAllStringSubmatch_length _ _ _ hm, captureCount_checkboxRegex]
    decide
  have hne : checkboxValues (FindAllStringSubmatch checkboxRegex htmlContent) n ≠ [] := by
    obtain ⟨m, hm, h1, h2⟩ := hBox
    intro hnil
    have hmem : m.getD 2 "" ∈
        checkboxValues (FindAllStringSubmatch checkboxRegex htmlContent) n := by
      unfold checkboxValues
      simp only [List.mem_filter, List.mem_map]
      exact ⟨⟨m, ⟨hm, decide_eq_true h1⟩, rfl⟩, by simpa using h2⟩
    rw [hnil] at hmem
    cases hmem
  rw [getKey_parseEvaluationForm htmlContent n hText hArea hCompare,
    getKey_checkboxLoop _ _ _ hlen]
  simp only [hne, if_false]
  simp [getKey]

/-- C12 witness: the checkbox group `q2` of `samplePage`, with the values `X`
then `K_以上均无`. -/
theorem parseEvaluationForm_checkbox_values_witness :
    getKey (parseEvaluationForm samplePage).1 "q2" =
      some (FormValue.strs
        (checkboxValues (FindAllStringSubmatch checkboxRegex samplePage) "q2")) :=
  parseEvaluationForm_checkbox_values samplePage "q2" (by decide) (by decide)
    (by
      intro m h
      have h0 : FindStringSubmatch textareaRegex samplePage =
          some ["<textarea name=\"zgpj\" class=\"form-control value_element\" rows=\"3\"></textarea>",
            "zgpj"] := by decide
      rw [h0] at h
      cases h
      decide)
    (by decide)

/-- C13: for every status-200 response to a FINAL submission that decodes as
a JSON object, `submitEvaluation` returns no error if and only if the object
has a field `result` whose value is the string `ok`; in every other case it
returns the error "评教提交失败: " followed by the `%v` rendering of the decoded
object, a message that contains that rendering. -/
theorem submitEvaluation_final_result (w : World) (formData : FormData) (tr : Trace)
    (body : String) (result : JSONObject)
    (hNew : w.NewRequest "POST" (postURL (setKey formData "tjcs" (FormValue.str "1"))) =
      none)
    (hDo : w.Do tr (submitRequest (setKey formData "tjcs" (FormValue.str "1"))) =
      Except.ok { StatusCode := 200, Body := Except.ok body })
    (hDec : w.decodeObject body = Except.ok result) :
    ((submitEvaluation w formData "1" tr).1.2 = none ↔
      getKey result "result" = some (JSONValue.str "ok")) ∧
    (getKey result "result" ≠ some (JSONValue.str "ok") →
      ∃ msg, (submitEvaluation w formData "1" tr).1.2 = some msg ∧
        msg = "评教提交失败: " ++ fmtObject result ∧
        stringsContains msg (fmtObject result) = true) := by
  have h := submitEvaluation_final w formData tr body result hNew hDo hDec
  constructor
  · rw [h]
    by_cases hok : getKey result "result" = some (JSONValue.str "ok")
    · simp [hok]
    · simp [hok]
  · intro hne
    refine ⟨"评教提交失败: " ++ fmtObject result, ?_, rfl, stringsContains_append _ _⟩
    rw [h]
    simp [hne]

/-- C13 witness: a FINAL submission of `sampleFinalForm` answered with the
object whose `result` is `ok`. -/
theorem submitEvaluation_final_result_witness :
    (submitEvaluation (scriptedWorld [okResponse bodyResultOk]) sampleFinalForm "1" []).1.2 =
      none ↔
    getKey [("result", JSONValue.str "ok")] "result" = some (JSONValue.str "ok") :=
  (submitEvaluation_final_result (scriptedWorld [okResponse bodyResultOk]) sampleFinalForm []
    bodyResultOk [("result", JSONValue.str "ok")] (by rfl) (by rfl) (by rfl)).1

/-- C14, amended: when the DRAFT submission of a course succeeds, the form
fields of the FINAL request differ from those of the DRAFT request in at
most the fields `tokenValue` and `tjcs`: every other field name carries the
same values, in the same order, in both; `tjcs` is `0` in the DRAFT request
and `1` in the FINAL request. -/
theorem EvaluateCourse_phases_share_fields (w : World) (course : Course) (tr : Trace)
    (html : String)
    (hNew : w.NewRequest "GET" (evaluationURL course) = none)
    (hPage : w.Do tr (pageRequest course) =
      Except.ok { StatusCode := 200, Body := Except.ok html })
    (hNewDraft : w.NewRequest "POST"
      (postURL (setKey (parseEvaluationForm html).1 "tjcs" (FormValue.str "0"))) = none)
    (hDraftOk : (submitEvaluation w (parseEvaluationForm html).1 "0"
      (tr ++ [Event.request (pageRequest course)])).1.2 = none)
    (hNewFinal : w.NewRequest "POST"
      (postURL (setKey (submitEvaluation w (parseEvaluationForm html).1 "0"
        (tr ++ [Event.request (pageRequest course)])).1.1 "tjcs" (FormValue.str "1"))) =
      none) :
    ∃ draftReq finalReq : Request,
      (EvaluateCourse w course tr).2 =
        tr ++ [Event.request (pageRequest course), Event.request draftReq, Event.sleep 1,
          Event.request finalReq] ∧
      (∀ k, k ≠ "tokenValue" → k ≠ "tjcs" →
        draftReq.Body.filter (fun f => f.1 = k) = finalReq.Body.filter (fun f => f.1 = k)) ∧
      (∀ v, ("tjcs", v) ∈ draftReq.Body ↔ v = "0") ∧
      (∀ v, ("tjcs", v) ∈ finalReq.Body ↔ v = "1") := by
  have hTr := submitEvaluation_trace w (parseEvaluationForm html).1 "0"
    (tr ++ [Event.request (pageRequest course)]) hNewDraft
  have hFilter := filter_multipartFields_submitEvaluation w (parseEvaluationForm html).1 "0"
    (tr ++ [Event.request (pageRequest course)])
  have hNodup := nodup_keys_submitEvaluation w (parseEvaluationForm html).1 "0"
    (tr ++ [Event.request (pageRequest course)]) (nodup_keys_parseEvaluationForm html)
  have hE := EvaluateCourse_of_page w course tr html hNew hPage
  generalize submitEvaluation w (parseEvaluationForm html).1 "0"
    (tr ++ [Event.request (pageRequest course)]) = d at hTr hFilter hNodup hE hDraftOk hNewFinal
  obtain ⟨⟨fd, e⟩, tr2⟩ := d
  simp only at hTr hFilter hNodup hDraftOk hNewFinal
  subst hTr hDraftOk
  have hF := submitEvaluation_trace w fd "1"
    (tr ++ [Event.request (pageRequest course)] ++
      [Event.request (submitRequest
        (setKey (parseEvaluationForm html).1 "tjcs" (FormValue.str "0")))] ++
      [Event.sleep 1]) hNewFinal
  refine ⟨submitRequest (setKey (parseEvaluationForm html).1 "tjcs" (FormValue.str "0")),
    submitRequest (setKey fd "tjcs" (FormValue.str "1")), ?_, ?_, ?_, ?_⟩
  · rw [hE]
    simp only
    generalize submitEvaluation w fd "1" _ = f at hF ⊢
    obtain ⟨⟨fd2, e2⟩, tr4⟩ := f
    simp only at hF
    subst hF
    cases e2 <;> simp
  · intro k h1 h2
    show (multipartFields _).filter _ = (multipartFields _).filter _
    rw [filter_multipartFields_setKey _ _ _ _ h2, filter_multipartFields_setKey _ _ _ _ h2,
      hFilter k h1 h2]
  · intro v
    exact mem_multipartFields_str _ "tjcs" "0"
      (nodup_keys_setKey _ _ _ (nodup_keys_parseEvaluationForm html))
      (getKey_setKey_self _ _ _) v
  · intro v
    exact mem_multipartFields_str _ "tjcs" "1" (nodup_keys_setKey _ _ _ hNodup)
      (getKey_setKey_self _ _ _) v

/-- C14 witness: the evaluation of `courseA` on `samplePage`. -/
theorem EvaluateCourse_phases_share_fields_witness :
    ∃ draftReq finalReq : Request,
      (EvaluateCourse (courseWorld samplePage) courseA []).2 =
        [] ++ [Event.request (pageRequest courseA), Event.request draftReq, Event.sleep 1,
          Event.request finalReq] ∧
      (∀ k, k ≠ "tokenValue" → k ≠ "tjcs" →
        draftReq.Body.filter (fun f => f.1 = k) = finalReq.Body.filter (fun f => f.1 = k)) ∧
      (∀ v, ("tjcs", v) ∈ draftReq.Body ↔ v = "0") ∧
      (∀ v, ("tjcs", v) ∈ finalReq.Body ↔ v = "1") :=
  EvaluateCourse_phases_share_fields (courseWorld samplePage) courseA [] samplePage
    (by rfl) (by rfl) (by rfl) (by decide) (by rfl)

/-- C14 as stated fails: on `samplePage` the field `tjcs`, which is not
`tokenValue`, is sent with the value `0` in the DRAFT request and with the
value `1` in the FINAL request. -/
theorem EvaluateCourse_phases_share_fields_counterexample :
    (EvaluateCourse (courseWorld samplePage) courseA []).2 =
      [Event.request (pageRequest courseA), Event.request (submitRequest sampleDraftForm),
        Event.sleep 1, Event.request (submitRequest sampleFinalForm)] ∧
    "tjcs" ≠ "tokenValue" ∧
    ("tjcs", "0") ∈ (submitRequest sampleDraftForm).Body ∧
    ("tjcs", "0") ∉ (submitRequest sampleFinalForm).Body ∧
    ("tjcs", "1") ∈ (submitRequest sampleFinalForm).Body := by
  refine ⟨?_, ?_, ?_, ?_, ?_⟩ <;> decide

/-- C15: if the DRAFT submission of a course fails (transport error, status
other than 200, or a body that does not decode), `EvaluateCourse` returns an
error that starts with "第一次提交评教失败" and the trace ends with the DRAFT
request: no FINAL request is sent. If fetching the evaluation page fails
(the request cannot be created, transport error, status other than 200, or
an unreadable body), it returns an error that names the page and sends no
submission request: the trace holds at most the page request. -/
theorem EvaluateCourse_stage_errors (w : World) (course : Course) (tr : Trace) :
    (∀ err, w.NewRequest "GET" (evaluationURL course) = some err →
      EvaluateCourse w course tr = (some ("创建评教页面请求失败: " ++ err), tr)) ∧
    (∀ err, w.NewRequest "GET" (evaluationURL course) = none →
      w.Do tr (pageRequest course) = Except.error err →
      EvaluateCourse w course tr =
        (some ("获取评教页面失败: " ++ err), tr ++ [Event.request (pageRequest course)])) ∧
    (∀ resp, w.NewRequest "GET" (evaluationURL course) = none →
      w.Do tr (pageRequest course) = Except.ok resp → resp.StatusCode ≠ 200 →
      EvaluateCourse w course tr =
        (some ("获取评教页面失败，状态码: " ++ toString resp.StatusCode),
          tr ++ [Event.request (pageRequest course)])) ∧
    (∀ resp err, w.NewRequest "GET" (evaluationURL course) = none →
      w.Do tr (pageRequest course) = Except.ok resp → resp.StatusCode = 200 →
      resp.Body = Except.error err →
      EvaluateCourse w course tr =
        (some ("读取评教页面失败: " ++ err), tr ++ [Event.request (pageRequest course)])) ∧
    (∀ html, w.NewRequest "GET" (evaluationURL course) = none →
      w.Do tr (pageRequest course) =
        Except.ok { StatusCode := 200, Body := Except.ok html } →
      w.NewRequest "POST"
        (postURL (setKey (parseEvaluationForm html).1 "tjcs" (FormValue.str "0"))) = none →
      (∀ err, w.Do (tr ++ [Event.request (pageRequest course)])
          (submitRequest (setKey (parseEvaluationForm html).1 "tjcs" (FormValue.str "0"))) =
          Except.error err →
        EvaluateCourse w course tr =
          (some ("第一次提交评教失败: " ++ ("提交评教失败: " ++ err)),
            tr ++ [Event.request (pageRequest course),
              Event.request (submitRequest
                (setKey (parseEvaluationForm html).1 "tjcs" (FormValue.str "0")))])) ∧
      (∀ resp, w.Do (tr ++ [Event.request (pageRequest course)])
          (submitRequest (setKey (parseEvaluationForm html).1 "tjcs" (FormValue.str "0"))) =
          Except.ok resp → resp.StatusCode ≠ 200 →
        EvaluateCourse w course tr =
          (some ("第一次提交评教失败: " ++
              ("提交评教失败，状态码: " ++ toString resp.StatusCode)),
            tr ++ [Event.request (pageRequest course),
              Event.request (submitRequest
                (setKey (parseEvaluationForm html).1 "tjcs" (FormValue.str "0")))])) ∧
      (∀ resp err, w.Do (tr ++ [Event.request (pageRequest course)])
          (submitRequest (setKey (parseEvaluationForm html).1 "tjcs" (FormValue.str "0"))) =
          Except.ok resp → resp.StatusCode = 200 →
        resp.Body.bind w.decodeObject = Except.error err →
        EvaluateCourse w course tr =
          (some ("第一次提交评教失败: " ++ ("解析评教响应失败: " ++ err)),
            tr ++ [Event.request (pageRequest course),
              Event.request (submitRequest
                (setKey (parseEvaluationForm html).1 "tjcs" (FormValue.str "0")))]))) := by
  refine ⟨?_, ?_, ?_, ?_, ?_⟩
  · intro err h
    simp [EvaluateCourse, h]
  · intro err hNew h
    simp [EvaluateCourse, hNew, h]
  · intro resp hNew h hs
    simp [EvaluateCourse, hNew, h, hs]
  · intro resp err hNew h hs hb
    simp [EvaluateCourse, hNew, h, hs, hb]
  · intro html hNew hPage hNewDraft
    rw [EvaluateCourse_of_page w course tr html hNew hPage]
    refine ⟨?_, ?_, ?_⟩
    · intro err h
      simp [submitEvaluation, hNewDraft, h]
    · intro resp h hs
      simp [submitEvaluation, hNewDraft, h, hs]
    · intro resp err h hs hb
      simp [submitEvaluation, hNewDraft, h, hs, hb]

/-- C15 witness: the page of `courseA` is answered with status 500. -/
theorem EvaluateCourse_stage_errors_witness :
    EvaluateCourse batchWorld courseA [] =
      (some ("获取评教页面失败，状态码: " ++ toString 500),
        [] ++ [Event.request (pageRequest courseA)]) :=
  (EvaluateCourse_stage_errors batchWorld courseA []).2.2.1
    { StatusCode := 500, Body := Except.ok "" } (by rfl) (by rfl) (by decide)

/-- C16: for non-empty user name, password and captcha and a login response
of status `s` and body `body`, `Login` returns success if and only if the
body contains "欢迎您", or `s` is 200 and the body contains neither "错误提示"
nor "验证码不正确"; otherwise it fails with "验证码不正确" if the body contains
that text, else with "用户名或密码错误" if the body contains "密码错误", else with
"登录失败". -/
theorem Login_classification (w : World) (c : SCUClient) (captchaText : String)
    (tr tr1 : Trace) (token : String) (s : Nat) (body : String)
    (hU : c.Username ≠ "") (hP : c.Password ≠ "") (hC : captchaText ≠ "")
    (hTok : GetToken w tr = (Except.ok token, tr1))
    (hNew : w.NewRequest "POST" loginURL = none)
    (hDo : w.Do tr1 (loginRequest w c token captchaText) =
      Except.ok { StatusCode := s, Body := Except.ok body }) :
    ((Login w c captchaText tr).1 = (true, none) ↔
      (stringsContains body "欢迎您" = true ∨
        (s = 200 ∧ stringsContains body "错误提示" = false ∧
          stringsContains body "验证码不正确" = false))) ∧
    ((Login w c captchaText tr).1.1 = true ↔
      (stringsContains body "欢迎您" = true ∨
        (s = 200 ∧ stringsContains body "错误提示" = false ∧
          stringsContains body "验证码不正确" = false))) ∧
    (¬ (stringsContains body "欢迎您" = true ∨
        (s = 200 ∧ stringsContains body "错误提示" = false ∧
          stringsContains body "验证码不正确" = false)) →
      (stringsContains body "验证码不正确" = true →
        (Login w c captchaText tr).1 = (false, some "验证码不正确")) ∧
      (stringsContains body "验证码不正确" = false →
        stringsContains body "密码错误" = true →
        (Login w c captchaText tr).1 = (false, some "用户名或密码错误")) ∧
      (stringsContains body "验证码不正确" = false →
        stringsContains body "密码错误" = false →
        (Login w c captchaText tr).1 = (false, some "登录失败"))) := by
  rw [Login_of_response w c captchaText tr tr1 token s body hU hP hC hTok hNew hDo]
  unfold classifyLogin
  by_cases h1 : stringsContains body "欢迎您" = true
  · simp [h1]
  · by_cases h2 : s = 200
    · by_cases h3 : stringsContains body "错误提示" = true
      · by_cases h4 : stringsContains body "验证码不正确" = true
        · simp [h1, h2, h3, h4]
        · by_cases h5 : stringsContains body "密码错误" = true
          · simp [h1, h2, h3, h4, h5]
          · simp [h1, h2, h3, h4, h5]
      · by_cases h4 : stringsContains body "验证码不正确" = true
        · simp [h1, h2, h3, h4]
        · simp [h1, h2, h3, h4]
    · by_cases h4 : stringsContains body "验证码不正确" = true
      · simp [h1, h2, h4]
      · by_cases h5 : stringsContains body "密码错误" = true
        · simp [h1, h2, h4, h5]
        · simp [h1, h2, h4, h5]

/-- C16 witness: a status-200 response with the heading "错误提示" and no
marker makes `Login` fail with "登录失败". -/
theorem Login_classification_witness :
    (Login (loginWorld 200 bodyErrorHeading) sampleClient "ab12" []).1.1 = true ↔
      (stringsContains bodyErrorHeading "欢迎您" = true ∨
        (200 = 200 ∧ stringsContains bodyErrorHeading "错误提示" = false ∧
          stringsContains bodyErrorHeading "验证码不正确" = false)) :=
  (Login_classification (loginWorld 200 bodyErrorHeading) sampleClient "ab12" []
    [Event.request tokenRequest] "tok" 200 bodyErrorHeading (by decide) (by decide)
    (by decide) (by rfl) (by rfl) (by rfl)).2.1

/-- C17: for every status-200 response to a DRAFT submission that decodes as
a JSON object without a string field `token`, `submitEvaluation` returns no
error, whatever else the object holds, and leaves the binding of `tokenValue`
as it was; the request of the following FINAL submission carries the same
`tokenValue` query parameter and the same `tokenValue` form fields as the
form data before the DRAFT submission. -/
theorem submitEvaluation_draft_keeps_token (w : World) (formData : FormData) (tr : Trace)
    (body : String) (result : JSONObject)
    (hNew : w.NewRequest "POST" (postURL (setKey formData "tjcs" (FormValue.str "0"))) =
      none)
    (hDo : w.Do tr (submitRequest (setKey formData "tjcs" (FormValue.str "0"))) =
      Except.ok { StatusCode := 200, Body := Except.ok body })
    (hDec : w.decodeObject body = Except.ok result)
    (hNoToken : ∀ t, getKey result "token" ≠ some (JSONValue.str t)) :
    submitEvaluation w formData "0" tr =
      ((setKey formData "tjcs" (FormValue.str "0"), none),
        tr ++ [Event.request (submitRequest (setKey formData "tjcs" (FormValue.str "0")))]) ∧
    getKey (submitEvaluation w formData "0" tr).1.1 "tokenValue" =
      getKey formData "tokenValue" ∧
    (∀ tr', w.NewRequest "POST" (postURL formData) = none →
      ∃ finalReq : Request,
        (submitEvaluation w (submitEvaluation w formData "0" tr).1.1 "1" tr').2 =
          tr' ++ [Event.request finalReq] ∧
        finalReq.URL = postURL formData ∧
        finalReq.Body.filter (fun f => f.1 = "tokenValue") =
          (multipartFields formData).filter (fun f => f.1 = "tokenValue")) := by
  have hAs : asString (getKey result "token") = ("", false) := by
    cases hres : getKey result "token" with
    | none => rfl
    | some v =>
      cases v with
      | other text => rfl
      | str t => exact absurd hres (hNoToken t)
  have hEq : submitEvaluation w formData "0" tr =
      ((setKey formData "tjcs" (FormValue.str "0"), none),
        tr ++ [Event.request (submitRequest (setKey formData "tjcs" (FormValue.str "0")))]) := by
    simp [submitEvaluation, hNew, hDo, Except.bind, hDec, hAs]
  have hGet : ∀ v, getKey (setKey (setKey formData "tjcs" (FormValue.str "0")) "tjcs" v)
      "tokenValue" = getKey formData "tokenValue" := by
    intro v
    rw [getKey_setKey_ne _ _ _ _ (by decide), getKey_setKey_ne _ _ _ _ (by decide)]
  have hURL : postURL (setKey (setKey formData "tjcs" (FormValue.str "0")) "tjcs"
      (FormValue.str "1")) = postURL formData := by
    simp only [postURL, hGet]
  refine ⟨hEq, ?_, ?_⟩
  · rw [hEq]
    exact getKey_setKey_ne _ _ _ _ (by decide)
  · intro tr' hNewFinal
    rw [hEq]
    refine ⟨submitRequest (setKey (setKey formData "tjcs" (FormValue.str "0")) "tjcs"
      (FormValue.str "1")), ?_, hURL, ?_⟩
    · exact submitEvaluation_trace w _ "1" tr' (by rw [hURL]; exact hNewFinal)
    · show (multipartFields _).filter _ = _
      rw [filter_multipartFields_setKey _ _ _ _ (by decide),
        filter_multipartFields_setKey _ _ _ _ (by decide)]

/-- C17 witness: a DRAFT submission of `sampleDraftForm` answered with the
empty object. -/
theorem submitEvaluation_draft_keeps_token_witness :
    getKey (submitEvaluation (scriptedWorld [okResponse bodyEmptyObject]) sampleDraftForm
      "0" []).1.1 "tokenValue" = getKey sampleDraftForm "tokenValue" :=
  (submitEvaluation_draft_keeps_token (scriptedWorld [okResponse bodyEmptyObject])
    sampleDraftForm [] bodyEmptyObject [] (by rfl) (by rfl) (by rfl)
    (by intro t h; cases h)).2.1

end SCU
